import Mathlib

/-!
Verification of the dual-LLM arbitration core of BazaarBrain-Pro.

This file is a shallow embedding of the arbitration, JSON-recovery,
fallback-heuristic, simulation and routing logic of
`agents/intake_agent.py`, `agents/reality_capture_agent.py` and
`agents/simulation_agent.py`.  Python dictionaries are modelled as
insertion-ordered association lists over a JSON value type `JVal`
(numbers as rationals), `None`-able backend outputs as `Option Dict`,
and Python `==` on parsed JSON values as the order-insensitive
`pyEq`.  Exceptions of a modelled region are `Option`/`Except`
results.  Filesystem, network and logging effects are dropped; values
that the source reads from the environment (API keys, timestamps,
backend responses) are passed as explicit parameters.
-/

/-- Whitespace set of Python `str.strip()` (ASCII part). -/
def pyWsChar (c : Char) : Bool :=
  c == ' ' || c == '\t' || c == '\n' || c == '\r' || c == '\x0b' || c == '\x0c'

/-- Python `s.strip()` on an explicit character list. -/
def pyStrip (cs : List Char) : List Char :=
  ((cs.dropWhile pyWsChar).reverse.dropWhile pyWsChar).reverse

/-- Structural prefix test on character lists. -/
def isPre : List Char → List Char → Bool
  | [], _ => true
  | _ :: _, [] => false
  | a :: as, b :: bs => a == b && isPre as bs

/-- Structural suffix test on character lists. -/
def isSuf (l1 l2 : List Char) : Bool :=
  isPre l1.reverse l2.reverse

/-- Python `needle in hay` substring test. -/
def strContains (hay needle : String) : Bool :=
  hay.toList.tails.any (fun t => isPre needle.toList t)

/-- Python `s.lower()` (ASCII inputs). -/
def pyLower (s : String) : String :=
  String.mk (s.toList.map Char.toLower)

/-- JSON-compatible values as produced by `json.loads`: the universal
data currency of the agents.  Numbers are modelled as rationals. -/
inductive JVal : Type where
  | null : JVal
  | bool (b : Bool) : JVal
  | num (q : ℚ) : JVal
  | str (s : String) : JVal
  | arr (xs : List JVal) : JVal
  | obj (kvs : List (String × JVal)) : JVal

/-- A Python dict (a `StructuredRecord`): keys in insertion order. -/
abbrev Dict := List (String × JVal)

mutual
/-- Python `==` on parsed JSON values: dict comparison is
order-insensitive (same keys, equal values); list comparison is
element-wise. -/
def pyEq : JVal → JVal → Bool
  | .null, .null => true
  | .bool x, .bool y => x == y
  | .num x, .num y => x == y
  | .str x, .str y => x == y
  | .arr xs, .arr ys => pyEqList xs ys
  | .obj xs, .obj ys => xs.length == ys.length && pyEqSub xs ys
  | _, _ => false

/-- Element-wise Python `==` on lists. -/
def pyEqList : List JVal → List JVal → Bool
  | [], [] => true
  | x :: xs, y :: ys => pyEq x y && pyEqList xs ys
  | _, _ => false

/-- Every pair of the first dict has a `pyEq`-matching entry in the second. -/
def pyEqSub : List (String × JVal) → List (String × JVal) → Bool
  | [], _ => true
  | kv :: rest, ys => pyEqFind kv.1 kv.2 ys && pyEqSub rest ys

/-- Membership of a key/value pair in a dict, values up to `pyEq`. -/
def pyEqFind : String → JVal → List (String × JVal) → Bool
  | _, _, [] => false
  | k, v, (k2, v2) :: t => (k == k2 && pyEq v v2) || pyEqFind k v t
end

/-- Python dict `==` between two records. -/
def pyEqDict (a b : Dict) : Bool :=
  pyEq (.obj a) (.obj b)

/-- Python `d.get(k)`: first (only, for a real dict) binding of `k`. -/
def dget : Dict → String → Option JVal
  | [], _ => none
  | (k2, v) :: t, k => if k2 == k then some v else dget t k

/-- Python `{**d, k: v}`: override `k` in place if present, else append. -/
def setKey (d : Dict) (k : String) (v : JVal) : Dict :=
  if d.any (fun p => p.1 == k) then
    d.map (fun p => if p.1 == k then (k, v) else p)
  else
    d ++ [(k, v)]

/-- Removal of a key from a record (used to state "record minus tag"). -/
def eraseKey (d : Dict) (k : String) : Dict :=
  d.filter (fun p => !(p.1 == k))

/-- Python truthiness of a dict: `{}` is falsy. -/
def truthyDict (d : Dict) : Bool :=
  !d.isEmpty

/-- Python truthiness of an `Optional[Dict]` backend outcome. -/
def truthy : Option Dict → Bool
  | none => false
  | some d => truthyDict d

/-- Python `==` on `Optional[Dict]` values (`None == None` is true,
`None` never equals a dict). -/
def pyEqOpt : Option Dict → Option Dict → Bool
  | none, none => true
  | some a, some b => pyEqDict a b
  | _, _ => false

theorem dget_map_override (k : String) (v : JVal) :
    ∀ t : Dict, (∃ p ∈ t, p.1 = k) →
      dget (t.map (fun p => if p.1 == k then (k, v) else p)) k = some v := by
  intro t
  induction t with
  | nil => rintro ⟨p, hp, _⟩; cases hp
  | cons p t ih =>
    intro hex
    simp only [List.map_cons]
    by_cases hp : p.1 = k
    · rw [if_pos (beq_iff_eq.mpr hp)]
      simp [dget]
    · rw [if_neg (by simpa using hp)]
      simp only [dget]
      rw [if_neg (by simpa using hp)]
      rcases hex with ⟨q, hq, hqk⟩
      rcases List.mem_cons.mp hq with h1 | h2
      · exact absurd (h1 ▸ hqk) hp
      · exact ih ⟨q, h2, hqk⟩

theorem dget_append_last (k : String) (v : JVal) :
    ∀ t : Dict, (∀ p ∈ t, p.1 ≠ k) → dget (t ++ [(k, v)]) k = some v := by
  intro t
  induction t with
  | nil => simp [dget]
  | cons p t ih =>
    intro hall
    simp only [List.cons_append, dget]
    rw [if_neg (by simpa using hall p (List.mem_cons_self p t))]
    exact ih (fun q hq => hall q (List.mem_cons_of_mem p hq))

theorem dget_setKey_self (d : Dict) (k : String) (v : JVal) :
    dget (setKey d k v) k = some v := by
  unfold setKey
  split
  · rename_i h
    rcases List.any_eq_true.mp h with ⟨p, hp, hpk⟩
    exact dget_map_override k v d ⟨p, hp, beq_iff_eq.mp hpk⟩
  · rename_i h
    apply dget_append_last
    intro p hp hpk
    exact h (List.any_eq_true.mpr ⟨p, hp, beq_iff_eq.mpr hpk⟩)

theorem eraseKey_map_override (k : String) (v : JVal) :
    ∀ t : Dict,
      eraseKey (t.map (fun p => if p.1 == k then (k, v) else p)) k = eraseKey t k := by
  intro t
  induction t with
  | nil => rfl
  | cons p t ih =>
    simp only [List.map_cons]
    by_cases hp : p.1 = k
    · rw [if_pos (beq_iff_eq.mpr hp)]
      simp only [eraseKey, List.filter_cons] at *
      rw [if_neg (by simp), if_neg (by simp [hp])]
      exact ih
    · rw [if_neg (by simpa using hp)]
      simp only [eraseKey, List.filter_cons] at *
      rw [ih]

theorem eraseKey_setKey (d : Dict) (k : String) (v : JVal) :
    eraseKey (setKey d k v) k = eraseKey d k := by
  unfold setKey
  split
  · exact eraseKey_map_override k v d
  · simp [eraseKey, List.filter_append]

/-- Rank of a confidence value per `confidence_order.get(c, 1)` in
`IntakeAgent.arbitrate_classification`: high 3, medium 2, low 1, any
other value 1 (the dict-get default). -/
def confRank : JVal → Nat
  | .str "high" => 3
  | .str "medium" => 2
  | .str "low" => 1
  | _ => 1

/-- Confidence of a record per `d.get("confidence", "low")`. -/
def confOf (d : Dict) : JVal :=
  (dget d "confidence").getD (.str "low")

/-- `IntakeAgent._fallback_classification`: deterministic keyword
classifier used when both LLMs fail. -/
def fallback_classification (user_input : String) : Dict :=
  let lo := pyLower user_input
  let ia : String × String :=
    if ["image", "photo", "receipt", "bill"].any (fun w => strContains lo w) then
      ("image_processing", "reality_capture")
    else if ["what if", "simulate", "if"].any (fun w => strContains lo w) then
      ("simulation_query", "simulation")
    else if ["sales", "transaction", "log"].any (fun w => strContains lo w) then
      ("sales_log", "sales")
    else if ["profit", "expense", "money", "financial"].any (fun w => strContains lo w) then
      ("financial_query", "financial")
    else if ["stock", "inventory", "product"].any (fun w => strContains lo w) then
      ("inventory_query", "inventory")
    else
      ("general", "none")
  [("intent", .str ia.1),
   ("confidence", .str "low"),
   ("reasoning", .str "Fallback classification used"),
   ("requires_agent", .str ia.2),
   ("classification_source", .str "fallback")]

/-- `IntakeAgent.arbitrate_classification`: dual-LLM arbitration for
intent classification. -/
def arbitrate_classification (gpt_output gemini_output : Option Dict) : Dict :=
  if pyEqOpt gpt_output gemini_output && gpt_output.isSome then
    setKey (gpt_output.getD []) "classification_source" (.str "gpt+gemini_agree")
  else if !truthy gpt_output && truthy gemini_output then
    setKey (gemini_output.getD []) "classification_source" (.str "gemini_only")
  else if !truthy gemini_output && truthy gpt_output then
    setKey (gpt_output.getD []) "classification_source" (.str "gpt_only")
  else if !truthy gpt_output && !truthy gemini_output then
    fallback_classification ""
  else
    let gpt_score := confRank (confOf (gpt_output.getD []))
    let gemini_score := confRank (confOf (gemini_output.getD []))
    if gpt_score ≥ gemini_score then
      setKey (gpt_output.getD []) "classification_source" (.str "gpt_preferred")
    else
      setKey (gemini_output.getD []) "classification_source" (.str "gemini_preferred")

/-- `SimulationAgent._fallback_parsing`: deterministic keyword parser
used when both LLMs fail. -/
def fallback_parsing (query : String) : Dict :=
  let lo := pyLower query
  let scenario : String :=
    if strContains lo "increase" && strContains lo "price" then "increase_price"
    else if strContains lo "decrease" && strContains lo "price" then "decrease_price"
    else if strContains lo "bulk" || strContains lo "together" then "bulk_order"
    else "unknown"
  [("scenario", .str scenario),
   ("item", .str "unknown"),
   ("change", .str "0"),
   ("current_value", .null),
   ("units", .str "%"),
   ("assumptions", .str "Fallback parsing used"),
   ("simulation_type", .str ("Basic " ++ scenario ++ " simulation")),
   ("parsing_source", .str "fallback")]

/-- `SimulationAgent.arbitrate_parsing`: dual-LLM arbitration for query
parsing; the non-identical tie-break compares top-level field counts. -/
def arbitrate_parsing (gpt_output gemini_output : Option Dict) : Dict :=
  if pyEqOpt gpt_output gemini_output && gpt_output.isSome then
    setKey (gpt_output.getD []) "parsing_source" (.str "gpt+gemini_agree")
  else if !truthy gpt_output && truthy gemini_output then
    setKey (gemini_output.getD []) "parsing_source" (.str "gemini_only")
  else if !truthy gemini_output && truthy gpt_output then
    setKey (gpt_output.getD []) "parsing_source" (.str "gpt_only")
  else if !truthy gpt_output && !truthy gemini_output then
    fallback_parsing ""
  else
    let gpt_completeness := (gpt_output.getD []).length
    let gemini_completeness := (gemini_output.getD []).length
    if gpt_completeness ≥ gemini_completeness then
      setKey (gpt_output.getD []) "parsing_source" (.str "gpt_preferred")
    else
      setKey (gemini_output.getD []) "parsing_source" (.str "gemini_preferred")

/-- Items list of an OCR record per `d.get("items", [])`.  A non-list
value under `"items"` would make Python `len`/iteration fail on
non-sequences; theorems about this branch assume list-or-missing. -/
def itemsOf (d : Dict) : List JVal :=
  match dget d "items" with
  | some (.arr xs) => xs
  | _ => []

/-- Total of an OCR record per `d.get("total", 0)`.  Non-numeric totals
(on which Python `max` would be a type error) are read as 0; theorems
about the merge branch assume number-or-missing. -/
def totalOf (d : Dict) : ℚ :=
  match dget d "total" with
  | some (.num q) => q
  | _ => 0

/-- The item-merge loop of `RealityCaptureAgent.arbitrate_ocr`: start
from the primary list, append each secondary item not already present
(Python `in`, i.e. `pyEq`) in the merged list. -/
def mergeItems (gpt_items gemini_items : List JVal) : List JVal :=
  gemini_items.foldl
    (fun acc item => if acc.any (fun z => pyEq z item) then acc else acc ++ [item])
    gpt_items

/-- The hard-coded both-failed record of `arbitrate_ocr`. -/
def ocrBothFailed : Dict :=
  [("items", .arr []),
   ("total", .num 0),
   ("source", .str "both_failed"),
   ("error", .str "Both LLMs failed to process the image")]

/-- `RealityCaptureAgent.arbitrate_ocr`: dual-LLM arbitration for OCR
results, with an item-count tie-break and a merge step on exact ties. -/
def arbitrate_ocr (gpt_output gemini_output : Option Dict) : Dict :=
  if pyEqOpt gpt_output gemini_output && gpt_output.isSome then
    setKey (gpt_output.getD []) "source" (.str "gpt+gemini_agree")
  else if !truthy gpt_output && truthy gemini_output then
    setKey (gemini_output.getD []) "source" (.str "gemini_only")
  else if !truthy gemini_output && truthy gpt_output then
    setKey (gpt_output.getD []) "source" (.str "gpt_only")
  else if !truthy gpt_output && !truthy gemini_output then
    ocrBothFailed
  else
    let gpt_items := itemsOf (gpt_output.getD [])
    let gemini_items := itemsOf (gemini_output.getD [])
    if gpt_items.length > gemini_items.length then
      setKey (gpt_output.getD []) "source" (.str "gpt_preferred")
    else if gemini_items.length > gpt_items.length then
      setKey (gemini_output.getD []) "source" (.str "gemini_preferred")
    else
      let merged : Dict :=
        [("items", .arr (mergeItems gpt_items gemini_items)),
         ("total", .num (max (totalOf (gpt_output.getD []))
                             (totalOf (gemini_output.getD [])))),
         ("source", .str "merged")]
      if truthy gpt_output &&
          (gpt_output.getD []).length >
            (if truthy gemini_output then (gemini_output.getD []).length else 0) then
        merged ++ (gpt_output.getD []).filter (fun kv => (dget merged kv.1).isNone)
      else if gemini_output.isSome then
        merged ++ (gemini_output.getD []).filter (fun kv => (dget merged kv.1).isNone)
      else
        merged

/-- JSON whitespace accepted between tokens by `json.loads`. -/
def jWsChar (c : Char) : Bool :=
  c == ' ' || c == '\t' || c == '\n' || c == '\r'

/-- Skip JSON inter-token whitespace. -/
def skipWs (cs : List Char) : List Char :=
  cs.dropWhile jWsChar

/-- Lower-case hex digit for a value below 16. -/
def hexDigitChar (n : Nat) : Char :=
  if n < 10 then Char.ofNat (48 + n) else Char.ofNat (87 + n)

/-- Value of a hex digit character. -/
def hexVal (c : Char) : Option Nat :=
  if c.isDigit then some (c.toNat - 48)
  else if 'a' ≤ c && c ≤ 'f' then some (c.toNat - 87)
  else if 'A' ≤ c && c ≤ 'F' then some (c.toNat - 55)
  else none

/-- JSON escape of one character: quote and backslash get a backslash
escape, control characters a `\u00XX` escape, all else passes through. -/
def escChar (c : Char) : List Char :=
  if c == '"' then ['\\', '"']
  else if c == '\\' then ['\\', '\\']
  else if c.toNat < 32 then
    ['\\', 'u', '0', '0', hexDigitChar (c.toNat / 16), hexDigitChar (c.toNat % 16)]
  else [c]

/-- JSON escape of a character list. -/
def escL : List Char → List Char
  | [] => []
  | c :: t => escChar c ++ escL t

/-- Decimal digits (big-endian) of a natural number. -/
def natChars (n : Nat) : List Char :=
  if n = 0 then ['0'] else ((Nat.digits 10 n).map Nat.digitChar).reverse

/-- Value of a big-endian list of decimal digit characters. -/
def chsVal (cs : List Char) : Nat :=
  cs.foldl (fun a c => 10 * a + (c.toNat - 48)) 0

/-- Serialization of a rational with a finite decimal expansion
(`q.den` divides a power of ten): sign, integer digits, a point, and
exactly `q.den` fractional digits. -/
def serNum (q : ℚ) : List Char :=
  let k := q.den
  let scaled := q.num.natAbs * (10 ^ k / q.den)
  let ds0 := natChars scaled
  let ds := List.replicate (k + 1 - ds0.length) '0' ++ ds0
  (if q < 0 then ['-'] else []) ++
    (ds.take (ds.length - k) ++ '.' :: ds.drop (ds.length - k))

/-- Serialization of a JSON string literal. -/
def serStrL (l : List Char) : List Char :=
  '"' :: escL l ++ ['"']

mutual
/-- Compact JSON serialization of a value (the reference `toJsonText`
for the round-trip property). -/
def serV : JVal → List Char
  | .null => 'n' :: ['u', 'l', 'l']
  | .bool true => 't' :: ['r', 'u', 'e']
  | .bool false => 'f' :: ['a', 'l', 's', 'e']
  | .num q => serNum q
  | .str s => serStrL s.toList
  | .arr xs => '[' :: serElems xs ++ [']']
  | .obj kvs => '\x7b' :: serMems kvs ++ ['\x7d']

/-- Comma-joined serialization of array elements. -/
def serElems : List JVal → List Char
  | [] => []
  | x :: t => serV x ++ serTail t

/-- Serialization of the remaining array elements, each after a comma. -/
def serTail : List JVal → List Char
  | [] => []
  | x :: t => ',' :: (serV x ++ serTail t)

/-- Serialization of one object member. -/
def serMem (kv : String × JVal) : List Char :=
  serStrL kv.1.toList ++ ':' :: serV kv.2

/-- Comma-joined serialization of object members. -/
def serMems : List (String × JVal) → List Char
  | [] => []
  | kv :: t => serMem kv ++ serMTail t

/-- Serialization of the remaining object members, each after a comma. -/
def serMTail : List (String × JVal) → List Char
  | [] => []
  | kv :: t => ',' :: (serMem kv ++ serMTail t)
end

/-- The JSON text of a structured record. -/
def toJsonText (R : Dict) : String :=
  String.mk (serV (.obj R))

/-- Parse the body of a JSON string literal (after the opening quote),
handling the standard escapes; strict mode rejects raw control
characters. -/
def parseStrL : Nat → List Char → Option (List Char × List Char)
  | 0, _ => none
  | _ + 1, [] => none
  | f + 1, c :: r =>
    if c == '"' then some ([], r)
    else if c == '\\' then
      match r with
      | [] => none
      | e :: r2 =>
        if e == '"' then (parseStrL f r2).map (fun p => ('"' :: p.1, p.2))
        else if e == '\\' then (parseStrL f r2).map (fun p => ('\\' :: p.1, p.2))
        else if e == '/' then (parseStrL f r2).map (fun p => ('/' :: p.1, p.2))
        else if e == 'b' then (parseStrL f r2).map (fun p => ('\x08' :: p.1, p.2))
        else if e == 'f' then (parseStrL f r2).map (fun p => ('\x0c' :: p.1, p.2))
        else if e == 'n' then (parseStrL f r2).map (fun p => ('\n' :: p.1, p.2))
        else if e == 'r' then (parseStrL f r2).map (fun p => ('\r' :: p.1, p.2))
        else if e == 't' then (parseStrL f r2).map (fun p => ('\t' :: p.1, p.2))
        else if e == 'u' then
          match r2 with
          | a :: b :: cc :: d :: r3 =>
            (match hexVal a, hexVal b, hexVal cc, hexVal d with
             | some x, some y, some z, some w =>
               (parseStrL f r3).map
                 (fun p => (Char.ofNat (((x * 16 + y) * 16 + z) * 16 + w) :: p.1, p.2))
             | _, _, _, _ => none)
          | _ => none
        else none
    else if c.toNat < 32 then none
    else (parseStrL f r).map (fun p => (c :: p.1, p.2))

/-- Parse an unsigned JSON number (integer digits, optional fraction). -/
def parseNumCore (cs : List Char) : Option (ℚ × List Char) :=
  let ip := cs.takeWhile Char.isDigit
  let r1 := cs.dropWhile Char.isDigit
  if ip.isEmpty then none
  else
    match r1 with
    | '.' :: r2 =>
      let fp := r2.takeWhile Char.isDigit
      let r3 := r2.dropWhile Char.isDigit
      if fp.isEmpty then none
      else some ((chsVal ip : ℚ) + (chsVal fp : ℚ) / (10 ^ fp.length : ℚ), r3)
    | _ => some ((chsVal ip : ℚ), r1)

/-- Parse a JSON number with optional sign. -/
def parseNumFrom (cs : List Char) : Option (JVal × List Char) :=
  match cs with
  | '-' :: t => (parseNumCore t).map (fun p => (.num (-p.1), p.2))
  | _ => (parseNumCore cs).map (fun p => (.num p.1, p.2))

/-- Parser modes: a value, the tail of an array, one object member, or
the tail of an object. -/
inductive PMode : Type where
  | val : PMode
  | arrTail : PMode
  | mem : PMode
  | objTail : PMode

/-- Parser intermediate results, one shape per mode. -/
inductive PRes : Type where
  | v (x : JVal) : PRes
  | elems (xs : List JVal) : PRes
  | onemem (kv : String × JVal) : PRes
  | mems (kvs : List (String × JVal)) : PRes

/-- Fuel-indexed recursive-descent JSON parser (the model of
`json.loads` on the fragment without exponent literals). -/
def parseF : Nat → PMode → List Char → Option (PRes × List Char)
  | 0, _, _ => none
  | f + 1, .val, cs =>
    match skipWs cs with
    | [] => none
    | c :: r =>
      if c == '-' || c.isDigit then
        (parseNumFrom (c :: r)).map (fun p => (.v p.1, p.2))
      else
        match c :: r with
        | 'n' :: 'u' :: 'l' :: 'l' :: r2 => some (.v .null, r2)
        | 't' :: 'r' :: 'u' :: 'e' :: r2 => some (.v (.bool true), r2)
        | 'f' :: 'a' :: 'l' :: 's' :: 'e' :: r2 => some (.v (.bool false), r2)
        | '"' :: r2 =>
          (match parseStrL r2.length r2 with
           | some (l, r3) => some (.v (.str (String.mk l)), r3)
           | none => none)
        | '[' :: r2 =>
          (match skipWs r2 with
           | ']' :: r3 => some (.v (.arr []), r3)
           | _ =>
             match parseF f .val r2 with
             | some (.v x, r3) =>
               (match parseF f .arrTail r3 with
                | some (.elems xs, r4) => some (.v (.arr (x :: xs)), r4)
                | _ => none)
             | _ => none)
        | '\x7b' :: r2 =>
          (match skipWs r2 with
           | '\x7d' :: r3 => some (.v (.obj []), r3)
           | _ =>
             match parseF f .mem r2 with
             | some (.onemem kv, r3) =>
               (match parseF f .objTail r3 with
                | some (.mems kvs, r4) => some (.v (.obj (kv :: kvs)), r4)
                | _ => none)
             | _ => none)
        | _ => none
  | f + 1, .arrTail, cs =>
    match skipWs cs with
    | ']' :: r => some (.elems [], r)
    | ',' :: r =>
      (match parseF f .val r with
       | some (.v x, r2) =>
         (match parseF f .arrTail r2 with
          | some (.elems xs, r3) => some (.elems (x :: xs), r3)
          | _ => none)
       | _ => none)
    | _ => none
  | f + 1, .mem, cs =>
    match skipWs cs with
    | '"' :: r =>
      (match parseStrL r.length r with
       | some (l, r2) =>
         (match skipWs r2 with
          | ':' :: r3 =>
            (match parseF f .val r3 with
             | some (.v x, r4) => some (.onemem (String.mk l, x), r4)
             | _ => none)
          | _ => none)
       | none => none)
    | _ => none
  | f + 1, .objTail, cs =>
    match skipWs cs with
    | '\x7d' :: r => some (.mems [], r)
    | ',' :: r =>
      (match parseF f .mem r with
       | some (.onemem kv, r2) =>
         (match parseF f .objTail r2 with
          | some (.mems kvs, r3) => some (.mems (kv :: kvs), r3)
          | _ => none)
       | _ => none)
    | _ => none

/-- Model of strict `json.loads`: parse one value, then require only
whitespace to follow. -/
def jsonLoads (cs : List Char) : Option JVal :=
  match parseF (cs.length + 1) .val cs with
  | some (.v x, r) => if (skipWs r).isEmpty then some x else none
  | _ => none

/-- `_parse_json_response` (identical in all three agents), the
`ResponseRecovery.recover` contract: strip, drop a leading 7-character
fence marker and a trailing 3-character fence marker, re-strip, then
strict-parse; any failure yields `none`. -/
def parse_json_response (content : String) : Option JVal :=
  let c0 := pyStrip content.toList
  let c1 := if isPre ("```json".toList) c0 then c0.drop 7 else c0
  let c2 := if isSuf ("```".toList) c1 then c1.take (c1.length - 3) else c1
  let c3 := pyStrip c2
  jsonLoads c3

theorem strMk_toList (s : String) : String.mk s.toList = s := rfl

/-- Head of the tail after a stopped character is untouched. -/
theorem takeWhile_append_all {p : Char → Bool} :
    ∀ (l r : List Char), (∀ c ∈ l, p c = true) →
      (∀ c, r.head? = some c → p c = false) →
      (l ++ r).takeWhile p = l ∧ (l ++ r).dropWhile p = r := by
  intro l
  induction l with
  | nil =>
    intro r _ hr
    cases r with
    | nil => exact ⟨rfl, rfl⟩
    | cons c t =>
      have := hr c rfl
      constructor
      · simp [List.takeWhile_cons, this]
      · simp [List.dropWhile_cons, this]
  | cons a l ih =>
    intro r hl hr
    have ha := hl a (List.mem_cons_self a l)
    have hrec := ih r (fun c hc => hl c (List.mem_cons_of_mem a hc)) hr
    constructor
    · simp [List.takeWhile_cons, ha, hrec.1]
    · simp [List.dropWhile_cons, ha, hrec.2]

theorem chsVal_acc :
    ∀ (l : List Char) (a : Nat),
      l.foldl (fun a c => 10 * a + (c.toNat - 48)) a =
        a * 10 ^ l.length + l.foldl (fun a c => 10 * a + (c.toNat - 48)) 0 := by
  intro l
  induction l with
  | nil => intro a; simp
  | cons c t ih =>
    intro a
    simp only [List.foldl_cons, List.length_cons]
    rw [ih (10 * a + (c.toNat - 48)), ih (10 * 0 + (c.toNat - 48))]
    ring

theorem chsVal_append (a b : List Char) :
    chsVal (a ++ b) = chsVal a * 10 ^ b.length + chsVal b := by
  unfold chsVal
  rw [List.foldl_append, chsVal_acc b (a.foldl _ 0)]

theorem chsVal_replicate_zero (j : Nat) (l : List Char) :
    chsVal (List.replicate j '0' ++ l) = chsVal l := by
  rw [chsVal_append]
  have : chsVal (List.replicate j '0') = 0 := by
    induction j with
    | zero => rfl
    | succ n ih =>
      rw [List.replicate_succ]
      unfold chsVal at *
      simp only [List.foldl_cons]
      have h0 : (10 * 0 + ('0'.toNat - 48)) = 0 := by decide
      rw [h0]
      exact ih
  rw [this]
  ring

theorem digitChar_val : ∀ d : Nat, d < 10 → (Nat.digitChar d).toNat - 48 = d := by
  decide

theorem digitChar_isDigit : ∀ d : Nat, d < 10 → (Nat.digitChar d).isDigit = true := by
  decide

theorem chsVal_digitsBE :
    ∀ ds : List Nat, (∀ d ∈ ds, d < 10) →
      chsVal ((ds.map Nat.digitChar).reverse) = Nat.ofDigits 10 ds := by
  intro ds
  induction ds with
  | nil => intro _; rfl
  | cons d t ih =>
    intro h
    simp only [List.map_cons, List.reverse_cons]
    rw [chsVal_append]
    have hd := h d (List.mem_cons_self d t)
    have : chsVal [Nat.digitChar d] = d := by
      unfold chsVal
      simp only [List.foldl_cons, List.foldl_nil]
      rw [Nat.mul_zero, Nat.zero_add]
      exact digitChar_val d hd
    rw [this, ih (fun x hx => h x (List.mem_cons_of_mem d hx))]
    rw [Nat.ofDigits_cons]
    simp
    ring

theorem chsVal_natChars (n : Nat) : chsVal (natChars n) = n := by
  unfold natChars
  by_cases h : n = 0
  · subst h; rfl
  · rw [if_neg h, chsVal_digitsBE _ (fun d hd => Nat.digits_lt_base (by norm_num) hd),
      Nat.ofDigits_digits]

theorem natChars_digits (n : Nat) : ∀ c ∈ natChars n, c.isDigit = true := by
  unfold natChars
  by_cases h : n = 0
  · subst h; intro c hc; simp at hc; subst hc; decide
  · rw [if_neg h]
    intro c hc
    rw [List.mem_reverse] at hc
    rcases List.mem_map.mp hc with ⟨d, hd, hdc⟩
    subst hdc
    exact digitChar_isDigit d (Nat.digits_lt_base (by norm_num) hd)

theorem natChars_ne_nil (n : Nat) : natChars n ≠ [] := by
  unfold natChars
  by_cases h : n = 0
  · subst h; simp
  · rw [if_neg h]
    simp only [ne_eq, List.reverse_eq_nil_iff, List.map_eq_nil_iff]
    exact Nat.digits_ne_nil_iff_ne_zero.mpr h

theorem hexVal_hexDigitChar : ∀ n : Nat, n < 16 → hexVal (hexDigitChar n) = some n := by
  decide

/-- A decimal digit character is not equal to any fixed non-digit. -/
theorem ne_of_isDigit (c x : Char) (h : c.isDigit = true) (hx : x.isDigit = false) :
    (c == x) = false := by
  cases hbe : c == x
  · rfl
  · have : c = x := beq_iff_eq.mp hbe
    subst this
    rw [h] at hx
    cases hx

theorem isDigit_not_jWs (c : Char) (h : c.isDigit = true) : jWsChar c = false := by
  unfold jWsChar
  rw [ne_of_isDigit c ' ' h (by decide), ne_of_isDigit c '\t' h (by decide),
    ne_of_isDigit c '\n' h (by decide), ne_of_isDigit c '\r' h (by decide)]
  rfl

theorem isDigit_not_pyWs (c : Char) (h : c.isDigit = true) : pyWsChar c = false := by
  unfold pyWsChar
  rw [ne_of_isDigit c ' ' h (by decide), ne_of_isDigit c '\t' h (by decide),
    ne_of_isDigit c '\n' h (by decide), ne_of_isDigit c '\r' h (by decide),
    ne_of_isDigit c '\x0b' h (by decide), ne_of_isDigit c '\x0c' h (by decide)]
  rfl

theorem skipWs_cons_nonws (c : Char) (t : List Char) (h : jWsChar c = false) :
    skipWs (c :: t) = c :: t := by
  simp [skipWs, List.dropWhile_cons, h]


/-- Step equation for the u-escape branch of the string parser. -/
theorem parseStrL_u (f : Nat) (h1 h2 : Char) (x y : Nat) (r3 : List Char)
    (hh1 : hexVal h1 = some x) (hh2 : hexVal h2 = some y) :
    parseStrL (f + 1) ('\\' :: 'u' :: '0' :: '0' :: h1 :: h2 :: r3) =
      (parseStrL f r3).map
        (fun p => (Char.ofNat (((0 * 16 + 0) * 16 + x) * 16 + y) :: p.1, p.2)) := by
  simp only [parseStrL,
    show ('\\' == '"') = false from rfl, show ('\\' == '\\') = true from rfl,
    show ('u' == '"') = false from rfl, show ('u' == '\\') = false from rfl,
    show ('u' == '/') = false from rfl, show ('u' == 'b') = false from rfl,
    show ('u' == 'f') = false from rfl, show ('u' == 'n') = false from rfl,
    show ('u' == 'r') = false from rfl, show ('u' == 't') = false from rfl,
    show ('u' == 'u') = true from rfl, Bool.false_eq_true, if_false, if_true]
  rw [show hexVal '0' = some 0 from rfl, hh1, hh2]

theorem parseStrL_escL :
    ∀ (l : List Char) (f : Nat) (rest : List Char), (escL l).length < f →
      parseStrL f (escL l ++ '"' :: rest) = some (l, rest) := by
  intro l
  induction l with
  | nil =>
    intro f rest hf
    match f, hf with
    | f + 1, _ => rfl
  | cons c t ih =>
    intro f rest hf
    have hlen : 1 ≤ (escChar c).length := by
      unfold escChar
      split
      · simp
      · split
        · simp
        · split <;> simp
    match f, hf with
    | f + 1, hf =>
    have hlt : (escL t).length < f := by
      have : escL (c :: t) = escChar c ++ escL t := rfl
      rw [this, List.length_append] at hf
      omega
    show parseStrL (f + 1) ((escChar c ++ escL t) ++ '"' :: rest) = _
    rw [List.append_assoc]
    by_cases h1 : c = '"'
    · subst h1
      rw [show escChar '"' = ['\\', '"'] from rfl]
      show (parseStrL f (escL t ++ '"' :: rest)).map (fun p => ('"' :: p.1, p.2)) = _
      rw [ih f rest hlt]
      rfl
    · by_cases h2 : c = '\\'
      · subst h2
        rw [show escChar '\\' = ['\\', '\\'] from rfl]
        show (parseStrL f (escL t ++ '"' :: rest)).map (fun p => ('\\' :: p.1, p.2)) = _
        rw [ih f rest hlt]
        rfl
      · by_cases h3 : c.toNat < 32
        · have hesc : escChar c =
              ['\\', 'u', '0', '0', hexDigitChar (c.toNat / 16),
               hexDigitChar (c.toNat % 16)] := by
            unfold escChar
            rw [if_neg (by simpa using h1), if_neg (by simpa using h2), if_pos h3]
          rw [hesc]
          show parseStrL (f + 1)
              ('\\' :: 'u' :: '0' :: '0' :: hexDigitChar (c.toNat / 16) ::
                hexDigitChar (c.toNat % 16) :: (escL t ++ '"' :: rest)) =
            some (c :: t, rest)
          rw [parseStrL_u f _ _ _ _ _
            (hexVal_hexDigitChar (c.toNat / 16) (by omega))
            (hexVal_hexDigitChar (c.toNat % 16) (by omega))]
          rw [ih f rest hlt]
          simp only [Option.map_some']
          have hval : ((0 * 16 + 0) * 16 + c.toNat / 16) * 16 + c.toNat % 16 = c.toNat := by
            omega
          rw [hval, Char.ofNat_toNat]
        · have hesc : escChar c = [c] := by
            unfold escChar
            rw [if_neg (by simpa using h1), if_neg (by simpa using h2), if_neg h3]
          rw [hesc]
          simp only [List.cons_append, List.nil_append, parseStrL]
          rw [if_neg (by simpa using h1), if_neg (by simpa using h2), if_neg h3]
          simp only [List.append_eq, List.nil_append]
          rw [ih f rest hlt]
          rfl

/-- A list beginning with a non-digit (or nothing): the guard under
which greedy digit parsing cannot overrun. -/
def numStop (rest : List Char) : Prop :=
  ∀ c, rest.head? = some c → c.isDigit = false

theorem parseNumCore_exact (ip fp rest : List Char)
    (hip : ∀ c ∈ ip, c.isDigit = true) (hipne : ip ≠ [])
    (hfp : ∀ c ∈ fp, c.isDigit = true) (hfpne : fp ≠ [])
    (hrest : numStop rest) :
    parseNumCore (ip ++ '.' :: (fp ++ rest)) =
      some ((chsVal ip : ℚ) + (chsVal fp : ℚ) / (10 ^ fp.length : ℚ), rest) := by
  obtain ⟨ht1, hd1⟩ := takeWhile_append_all ip ('.' :: (fp ++ rest)) hip
    (by intro c hc; simp at hc; subst hc; decide)
  obtain ⟨ht2, hd2⟩ := takeWhile_append_all fp rest hfp hrest
  unfold parseNumCore
  simp only [ht1, hd1]
  rw [if_neg (by simpa [List.isEmpty_iff] using hipne)]
  simp only [ht2, hd2]
  rw [if_neg (by simpa [List.isEmpty_iff] using hfpne)]

theorem parseNumFrom_serNum (q : ℚ) (hden : q.den ∣ 10 ^ q.den) (rest : List Char)
    (hrest : numStop rest) :
    parseNumFrom (serNum q ++ rest) = some (.num q, rest) := by
  set scaled := q.num.natAbs * (10 ^ q.den / q.den) with hscaled
  set ds := List.replicate (q.den + 1 - (natChars scaled).length) '0' ++ natChars scaled
    with hds
  set j := ds.length - q.den with hj
  have hden0 : 0 < q.den := q.den_pos
  have hdsd : ∀ c ∈ ds, c.isDigit = true := by
    intro c hc
    rcases List.mem_append.mp hc with h | h
    · rw [List.eq_of_mem_replicate h]; decide
    · exact natChars_digits scaled c h
  have hds0len : 1 ≤ (natChars scaled).length :=
    List.length_pos.mpr (natChars_ne_nil scaled)
  have hdslen : q.den + 1 ≤ ds.length := by
    rw [hds, List.length_append, List.length_replicate]
    omega
  have hj1 : 1 ≤ j := by omega
  have hip : ∀ c ∈ ds.take j, c.isDigit = true :=
    fun c hc => hdsd c (List.mem_of_mem_take hc)
  have hfp : ∀ c ∈ ds.drop j, c.isDigit = true :=
    fun c hc => hdsd c (List.mem_of_mem_drop hc)
  have hipne : ds.take j ≠ [] := by
    have : (ds.take j).length = j := by
      rw [List.length_take]
      omega
    intro hnil
    rw [hnil] at this
    simp at this
    omega
  have hfplen : (ds.drop j).length = q.den := by
    rw [List.length_drop]
    omega
  have hfpne : ds.drop j ≠ [] := by
    intro hnil
    rw [hnil] at hfplen
    simp at hfplen
    omega
  have hvalds : chsVal ds = scaled := by
    rw [hds, chsVal_replicate_zero, chsVal_natChars]
  have hIF : chsVal (ds.take j) * 10 ^ q.den + chsVal (ds.drop j) = scaled := by
    conv_rhs => rw [← hvalds, ← List.take_append_drop j ds]
    rw [chsVal_append, hfplen]
  have hcore := parseNumCore_exact (ds.take j) (ds.drop j) rest hip hipne hfp hfpne hrest
  rw [hfplen] at hcore
  have hdenQ : ((q.den : ℚ)) ≠ 0 := by
    exact_mod_cast Nat.pos_iff_ne_zero.mp hden0
  have hpowQ : ((10 : ℚ) ^ q.den) ≠ 0 := by positivity
  have hr : ((scaled : ℕ) : ℚ) = (q.num.natAbs : ℚ) * ((10 : ℚ) ^ q.den) / (q.den : ℚ) := by
    rw [hscaled, Nat.cast_mul, Nat.cast_div hden hdenQ]
    push_cast
    ring
  have hval : (chsVal (ds.take j) : ℚ) + (chsVal (ds.drop j) : ℚ) / (10 ^ q.den : ℚ) =
      (q.num.natAbs : ℚ) / (q.den : ℚ) := by
    have hcast : (chsVal (ds.take j) : ℚ) * (10 : ℚ) ^ q.den + (chsVal (ds.drop j) : ℚ) =
        (scaled : ℚ) := by
      exact_mod_cast congrArg (fun n : ℕ => (n : ℚ)) hIF
    rw [hr] at hcast
    field_simp at hcast ⊢
    linarith [hcast]
  have hser : serNum q = (if q < 0 then ['-'] else []) ++
      (ds.take j ++ '.' :: ds.drop j) := by
    rw [hj, hds]
    rfl
  by_cases hneg : q < 0
  · rw [hser, if_pos hneg]
    have hlist : (['-'] ++ (ds.take j ++ '.' :: ds.drop j)) ++ rest =
        '-' :: (ds.take j ++ '.' :: (ds.drop j ++ rest)) := by
      simp [List.append_assoc]
    rw [hlist]
    show (parseNumCore (ds.take j ++ '.' :: (ds.drop j ++ rest))).map
        (fun p => (JVal.num (-p.1), p.2)) = _
    rw [hcore]
    simp only [Option.map_some']
    rw [hval]
    have hle : q.num ≤ 0 := by
      by_contra hpos
      push_neg at hpos
      have : 0 < q := Rat.num_pos.mp hpos
      linarith
    have hnum : (q.num.natAbs : ℚ) = -(q.num : ℚ) := by
      rw [Int.cast_natAbs, abs_of_nonpos hle]
      push_cast
      ring
    rw [hnum, neg_div, neg_neg, Rat.num_div_den]
  · rw [hser, if_neg hneg]
    simp only [List.nil_append]
    have hlist : (ds.take j ++ '.' :: ds.drop j) ++ rest =
        ds.take j ++ '.' :: (ds.drop j ++ rest) := by
      simp [List.append_assoc]
    rw [hlist]
    unfold parseNumFrom
    split
    · rename_i t heq
      obtain ⟨c, tl, hct⟩ : ∃ c tl, ds.take j = c :: tl := by
        cases h : ds.take j with
        | nil => exact absurd h hipne
        | cons c tl => exact ⟨c, tl, rfl⟩
      rw [hct] at heq
      simp only [List.cons_append, List.cons.injEq] at heq
      have hcdig : c.isDigit = true := hip c (hct ▸ List.mem_cons_self c tl)
      rw [heq.1] at hcdig
      exact absurd hcdig (by decide)
    · rw [hcore]
      simp only [Option.map_some']
      rw [hval]
      have hle : 0 ≤ q.num := Rat.num_nonneg.mpr (not_lt.mp hneg)
      have hnum : (q.num.natAbs : ℚ) = (q.num : ℚ) := by
        rw [Int.cast_natAbs, abs_of_nonneg hle]
      rw [hnum, Rat.num_div_den]

mutual
/-- Every number in the value has a finite decimal expansion
(denominator dividing a power of ten): the well-formedness condition
under which a record has an exact JSON decimal serialization. -/
def numsOK : JVal → Bool
  | .null => true
  | .bool _ => true
  | .num q => 10 ^ q.den % q.den == 0
  | .str _ => true
  | .arr xs => numsOKL xs
  | .obj kvs => numsOKM kvs

/-- `numsOK` over array elements. -/
def numsOKL : List JVal → Bool
  | [] => true
  | x :: t => numsOK x && numsOKL t

/-- `numsOK` over object members. -/
def numsOKM : List (String × JVal) → Bool
  | [] => true
  | kv :: t => numsOK kv.2 && numsOKM t
end

theorem dvd_of_numsOK_num (q : ℚ) (h : numsOK (.num q) = true) :
    q.den ∣ 10 ^ q.den := by
  simp only [numsOK] at h
  exact Nat.dvd_of_mod_eq_zero (by exact_mod_cast beq_iff_eq.mp h)

theorem serNum_head (q : ℚ) :
    ∃ c t, serNum q = c :: t ∧ (c == '-' || c.isDigit) = true := by
  set scaled := q.num.natAbs * (10 ^ q.den / q.den) with hscaled
  set ds := List.replicate (q.den + 1 - (natChars scaled).length) '0' ++ natChars scaled
    with hds
  set j := ds.length - q.den with hj
  have hden0 : 0 < q.den := q.den_pos
  have hds0len : 1 ≤ (natChars scaled).length :=
    List.length_pos.mpr (natChars_ne_nil scaled)
  have hdslen : q.den + 1 ≤ ds.length := by
    rw [hds, List.length_append, List.length_replicate]
    omega
  have hj1 : 1 ≤ j := by omega
  have hser : serNum q = (if q < 0 then ['-'] else []) ++
      (ds.take j ++ '.' :: ds.drop j) := by
    rw [hj, hds]
    rfl
  by_cases hneg : q < 0
  · refine ⟨'-', ds.take j ++ '.' :: ds.drop j, ?_, by decide⟩
    rw [hser, if_pos hneg]
    rfl
  · obtain ⟨c, tl, hct⟩ : ∃ c tl, ds.take j = c :: tl := by
      cases h : ds.take j with
      | nil =>
        have : (ds.take j).length = j := by
          rw [List.length_take]; omega
        rw [h] at this
        simp at this
        omega
      | cons c tl => exact ⟨c, tl, rfl⟩
    have hcd : c.isDigit = true := by
      have hmem : c ∈ ds := List.mem_of_mem_take (hct ▸ List.mem_cons_self c tl)
      rcases List.mem_append.mp hmem with h | h
      · rw [List.eq_of_mem_replicate h]; decide
      · exact natChars_digits scaled c h
    refine ⟨c, tl ++ '.' :: ds.drop j, ?_, by rw [hcd]; simp⟩
    rw [hser, if_neg hneg, List.nil_append, hct]
    rfl

theorem numHead_not_jWs (c : Char) (h : (c == '-' || c.isDigit) = true) :
    jWsChar c = false := by
  rcases Bool.or_eq_true_iff.mp h with h1 | h2
  · rw [beq_iff_eq.mp h1]; decide
  · exact isDigit_not_jWs c h2

theorem numHead_facts (c : Char) (h : (c == '-' || c.isDigit) = true) :
    (c == ']') = false ∧ (c == '\x7d') = false := by
  rcases Bool.or_eq_true_iff.mp h with h1 | h2
  · rw [beq_iff_eq.mp h1]; exact ⟨by decide, by decide⟩
  · exact ⟨ne_of_isDigit c ']' h2 (by decide), ne_of_isDigit c '\x7d' h2 (by decide)⟩

/-- Any serialized value starts with a non-whitespace character that is
neither a closing bracket nor a closing brace. -/
theorem serV_head (v : JVal) :
    ∃ c t, serV v = c :: t ∧ jWsChar c = false ∧
      (c == ']') = false ∧ (c == '\x7d') = false := by
  cases v with
  | null => exact ⟨'n', ['u', 'l', 'l'], by simp [serV], by decide, by decide, by decide⟩
  | bool b =>
    cases b with
    | true => exact ⟨'t', ['r', 'u', 'e'], by simp [serV], by decide, by decide, by decide⟩
    | false =>
      exact ⟨'f', ['a', 'l', 's', 'e'], by simp [serV], by decide, by decide, by decide⟩
  | num q =>
    obtain ⟨c, t, hct, hcd⟩ := serNum_head q
    obtain ⟨h1, h2⟩ := numHead_facts c hcd
    exact ⟨c, t, by simp [serV, hct], numHead_not_jWs c hcd, h1, h2⟩
  | str s =>
    exact ⟨'"', escL s.toList ++ ['"'], by simp [serV, serStrL], by decide, by decide,
      by decide⟩
  | arr xs =>
    exact ⟨'[', serElems xs ++ [']'], by simp [serV], by decide, by decide, by decide⟩
  | obj kvs =>
    exact ⟨'\x7b', serMems kvs ++ ['\x7d'], by simp [serV], by decide, by decide,
      by decide⟩

theorem numStop_serTail (t : List JVal) (rest : List Char) :
    numStop (serTail t ++ ']' :: rest) := by
  cases t with
  | nil =>
    intro c hc
    simp only [serTail, List.nil_append, List.head?_cons, Option.some.injEq] at hc
    rw [← hc]; decide
  | cons y t2 =>
    intro c hc
    simp only [serTail, List.cons_append, List.head?_cons, Option.some.injEq] at hc
    rw [← hc]; decide

theorem numStop_serMTail (t : List (String × JVal)) (rest : List Char) :
    numStop (serMTail t ++ '\x7d' :: rest) := by
  cases t with
  | nil =>
    intro c hc
    simp only [serMTail, List.nil_append, List.head?_cons, Option.some.injEq] at hc
    rw [← hc]; decide
  | cons y t2 =>
    intro c hc
    simp only [serMTail, List.cons_append, List.head?_cons, Option.some.injEq] at hc
    rw [← hc]; decide

theorem parseF_val_cons (f : Nat) (c : Char) (r : List Char) (h : jWsChar c = false) :
    parseF (f + 1) .val (c :: r) =
      (if c == '-' || c.isDigit then
        (parseNumFrom (c :: r)).map (fun p => (.v p.1, p.2))
      else
        match c :: r with
        | 'n' :: 'u' :: 'l' :: 'l' :: r2 => some (.v .null, r2)
        | 't' :: 'r' :: 'u' :: 'e' :: r2 => some (.v (.bool true), r2)
        | 'f' :: 'a' :: 'l' :: 's' :: 'e' :: r2 => some (.v (.bool false), r2)
        | '"' :: r2 =>
          (match parseStrL r2.length r2 with
           | some (l, r3) => some (.v (.str (String.mk l)), r3)
           | none => none)
        | '[' :: r2 =>
          (match skipWs r2 with
           | ']' :: r3 => some (.v (.arr []), r3)
           | _ =>
             match parseF f .val r2 with
             | some (.v x, r3) =>
               (match parseF f .arrTail r3 with
                | some (.elems xs, r4) => some (.v (.arr (x :: xs)), r4)
                | _ => none)
             | _ => none)
        | '\x7b' :: r2 =>
          (match skipWs r2 with
           | '\x7d' :: r3 => some (.v (.obj []), r3)
           | _ =>
             match parseF f .mem r2 with
             | some (.onemem kv, r3) =>
               (match parseF f .objTail r3 with
                | some (.mems kvs, r4) => some (.v (.obj (kv :: kvs)), r4)
                | _ => none)
             | _ => none)
        | _ => none) := by
  simp only [parseF]
  rw [skipWs_cons_nonws _ _ h]

theorem parseF_val_lbrack (f : Nat) (X : List Char) :
    parseF (f + 1) .val ('[' :: X) =
      (match skipWs X with
       | ']' :: r3 => some (.v (.arr []), r3)
       | _ =>
         match parseF f .val X with
         | some (.v x, r3) =>
           (match parseF f .arrTail r3 with
            | some (.elems xs, r4) => some (.v (.arr (x :: xs)), r4)
            | _ => none)
         | _ => none) := rfl

theorem parseF_val_lbrace (f : Nat) (X : List Char) :
    parseF (f + 1) .val ('\x7b' :: X) =
      (match skipWs X with
       | '\x7d' :: r3 => some (.v (.obj []), r3)
       | _ =>
         match parseF f .mem X with
         | some (.onemem kv, r3) =>
           (match parseF f .objTail r3 with
            | some (.mems kvs, r4) => some (.v (.obj (kv :: kvs)), r4)
            | _ => none)
         | _ => none) := rfl

theorem parseF_val_quote (f : Nat) (X : List Char) :
    parseF (f + 1) .val ('"' :: X) =
      (match parseStrL X.length X with
       | some (l, r3) => some (.v (.str (String.mk l)), r3)
       | none => none) := rfl

theorem parseF_arrTail_comma (f : Nat) (X : List Char) :
    parseF (f + 1) .arrTail (',' :: X) =
      (match parseF f .val X with
       | some (.v x, r2) =>
         (match parseF f .arrTail r2 with
          | some (.elems xs, r3) => some (.elems (x :: xs), r3)
          | _ => none)
       | _ => none) := rfl

theorem parseF_objTail_comma (f : Nat) (X : List Char) :
    parseF (f + 1) .objTail (',' :: X) =
      (match parseF f .mem X with
       | some (.onemem kv, r2) =>
         (match parseF f .objTail r2 with
          | some (.mems kvs, r3) => some (.mems (kv :: kvs), r3)
          | _ => none)
       | _ => none) := rfl

theorem parseF_mem_quote (f : Nat) (X : List Char) :
    parseF (f + 1) .mem ('"' :: X) =
      (match parseStrL X.length X with
       | some (l, r2) =>
         (match skipWs r2 with
          | ':' :: r3 =>
            (match parseF f .val r3 with
             | some (.v x, r4) => some (.onemem (String.mk l, x), r4)
             | _ => none)
          | _ => none)
       | none => none) := rfl

/-- Main parser/serializer agreement, by strong induction on fuel: a
serialized value followed by a safe remainder parses back exactly. -/
theorem parse_serV_aux :
    ∀ f : Nat,
      (∀ v rest, (serV v).length < f → numStop rest → numsOK v = true →
        parseF f .val (serV v ++ rest) = some (.v v, rest)) ∧
      (∀ ts rest, (serTail ts).length < f → numsOKL ts = true →
        parseF f .arrTail (serTail ts ++ ']' :: rest) = some (.elems ts, rest)) ∧
      (∀ kv rest, (serMem kv).length < f → numStop rest → numsOK kv.2 = true →
        parseF f .mem (serMem kv ++ rest) = some (.onemem kv, rest)) ∧
      (∀ ts rest, (serMTail ts).length < f → numsOKM ts = true →
        parseF f .objTail (serMTail ts ++ '\x7d' :: rest) = some (.mems ts, rest)) := by
  intro f
  induction f using Nat.strong_induction_on with
  | _ f IH =>
  cases f with
  | zero =>
    refine ⟨?_, ?_, ?_, ?_⟩ <;> intro a b h <;> omega
  | succ g =>
  obtain ⟨IHA, IHB, IHM, IHO⟩ := IH g (Nat.lt_succ_self g)
  refine ⟨?_, ?_, ?_, ?_⟩
  · intro v rest hlen hrest hok
    cases v with
    | null =>
      rw [show serV .null = ['n', 'u', 'l', 'l'] from by simp [serV]]
      rfl
    | bool b =>
      cases b with
      | true =>
        rw [show serV (.bool true) = ['t', 'r', 'u', 'e'] from by simp [serV]]
        rfl
      | false =>
        rw [show serV (.bool false) = ['f', 'a', 'l', 's', 'e'] from by simp [serV]]
        rfl
    | num q =>
      have hden := dvd_of_numsOK_num q hok
      obtain ⟨c, t, hct, hcd⟩ := serNum_head q
      have hws := numHead_not_jWs c hcd
      rw [show serV (.num q) = serNum q from by simp [serV], hct, List.cons_append]
      rw [parseF_val_cons g c (t ++ rest) hws, if_pos hcd, ← List.cons_append, ← hct,
        parseNumFrom_serNum q hden rest hrest]
      rfl
    | str s =>
      rw [show serV (.str s) ++ rest = '"' :: (escL s.toList ++ '"' :: rest) from by
        simp [serV, serStrL]]
      rw [parseF_val_quote]
      rw [parseStrL_escL s.toList _ rest
        (by simp only [List.length_append, List.length_cons]; omega)]
      simp [strMk_toList]
    | arr xs =>
      cases xs with
      | nil =>
        rw [show serV (.arr []) = ['[', ']'] from by simp [serV, serElems]]
        rfl
      | cons x t =>
        have hsl : serV (.arr (x :: t)) = '[' :: ((serV x ++ serTail t) ++ [']']) := by
          simp [serV, serElems]
        rw [hsl] at hlen
        simp only [List.length_cons, List.length_append] at hlen
        have hxok : numsOK x = true ∧ numsOKL t = true := by
          have : numsOKL (x :: t) = true := by
            simpa [numsOK] using hok
          simpa [numsOKL, Bool.and_eq_true] using this
        rw [show serV (.arr (x :: t)) ++ rest =
            '[' :: (serV x ++ (serTail t ++ ']' :: rest)) from by
          simp [serV, serElems, List.append_assoc]]
        rw [parseF_val_lbrack]
        obtain ⟨c0, t0, hct0, hws0, hnb0, hnc0⟩ := serV_head x
        rw [hct0, List.cons_append, skipWs_cons_nonws _ _ hws0]
        split
        · rename_i heq
          simp only [List.cons.injEq] at heq
          rw [heq.1] at hnb0
          simp at hnb0
        · rw [← List.cons_append, ← hct0,
            IHA x (serTail t ++ ']' :: rest) (by omega) (numStop_serTail t rest) hxok.1]
          show (match parseF g .arrTail (serTail t ++ ']' :: rest) with
                | some (PRes.elems xs', r4) => some (PRes.v (JVal.arr (x :: xs')), r4)
                | _ => none) = _
          rw [IHB t rest (by omega) hxok.2]
    | obj kvs =>
      cases kvs with
      | nil =>
        rw [show serV (.obj []) = ['\x7b', '\x7d'] from by simp [serV, serMems]]
        rfl
      | cons kv t =>
        have hsl : serV (.obj (kv :: t)) = '\x7b' :: ((serMem kv ++ serMTail t) ++ ['\x7d']) := by
          simp [serV, serMems]
        rw [hsl] at hlen
        simp only [List.length_cons, List.length_append] at hlen
        have hxok : numsOK kv.2 = true ∧ numsOKM t = true := by
          have : numsOKM (kv :: t) = true := by
            simpa [numsOK] using hok
          simpa [numsOKM, Bool.and_eq_true] using this
        rw [show serV (.obj (kv :: t)) ++ rest =
            '\x7b' :: (serMem kv ++ (serMTail t ++ '\x7d' :: rest)) from by
          simp [serV, serMems, List.append_assoc]]
        rw [parseF_val_lbrace]
        have hmemhead : ∃ c0 t0, serMem kv = c0 :: t0 ∧ jWsChar c0 = false ∧
            (c0 == '\x7d') = false := by
          refine ⟨'"', escL kv.1.toList ++ '"' :: (':' :: serV kv.2), ?_, by decide, by decide⟩
          simp [serMem, serStrL]
        obtain ⟨c0, t0, hct0, hws0, hnc0⟩ := hmemhead
        rw [hct0, List.cons_append, skipWs_cons_nonws _ _ hws0]
        split
        · rename_i heq
          simp only [List.cons.injEq] at heq
          rw [heq.1] at hnc0
          simp at hnc0
        · rw [← List.cons_append, ← hct0,
            IHM kv (serMTail t ++ '\x7d' :: rest) (by omega) (numStop_serMTail t rest)
              hxok.1]
          show (match parseF g .objTail (serMTail t ++ '\x7d' :: rest) with
                | some (PRes.mems kvs', r4) => some (PRes.v (JVal.obj (kv :: kvs')), r4)
                | _ => none) = _
          rw [IHO t rest (by omega) hxok.2]
  · intro ts rest hlen hok
    cases ts with
    | nil =>
      rw [show serTail ([] : List JVal) ++ ']' :: rest = ']' :: rest from by simp [serTail]]
      rfl
    | cons x t =>
      have hsl : serTail (x :: t) = ',' :: (serV x ++ serTail t) := by simp [serTail]
      rw [hsl] at hlen
      simp only [List.length_cons, List.length_append] at hlen
      have hxok : numsOK x = true ∧ numsOKL t = true := by
        simpa [numsOKL, Bool.and_eq_true] using hok
      rw [show serTail (x :: t) ++ ']' :: rest =
          ',' :: (serV x ++ (serTail t ++ ']' :: rest)) from by
        simp [serTail, List.append_assoc]]
      rw [parseF_arrTail_comma,
        IHA x (serTail t ++ ']' :: rest) (by omega) (numStop_serTail t rest) hxok.1]
      show (match parseF g .arrTail (serTail t ++ ']' :: rest) with
            | some (PRes.elems xs', r3) => some (PRes.elems (x :: xs'), r3)
            | _ => none) = _
      rw [IHB t rest (by omega) hxok.2]
  · intro kv rest hlen hrest hok
    have hsl : serMem kv ++ rest =
        '"' :: (escL kv.1.toList ++ '"' :: (':' :: (serV kv.2 ++ rest))) := by
      simp [serMem, serStrL, List.append_assoc]
    have hlen2 : (serV kv.2).length + 3 ≤ (serMem kv).length := by
      simp only [serMem, serStrL, List.length_append, List.cons_append,
        List.length_cons]
      omega
    rw [hsl, parseF_mem_quote]
    rw [parseStrL_escL kv.1.toList _ _
      (by simp only [List.length_append, List.length_cons]; omega)]
    show (match skipWs (':' :: (serV kv.2 ++ rest)) with
          | ':' :: r3 =>
            (match parseF g .val r3 with
             | some (PRes.v x, r4) => some (PRes.onemem (String.mk kv.1.toList, x), r4)
             | _ => none)
          | _ => none) = _
    rw [skipWs_cons_nonws _ _ (by decide)]
    show (match parseF g .val (serV kv.2 ++ rest) with
          | some (PRes.v x, r4) => some (PRes.onemem (String.mk kv.1.toList, x), r4)
          | _ => none) = _
    rw [IHA kv.2 rest (by omega) hrest hok]
    simp [strMk_toList]
  · intro ts rest hlen hok
    cases ts with
    | nil =>
      rw [show serMTail ([] : List (String × JVal)) ++ '\x7d' :: rest = '\x7d' :: rest from by
        simp [serMTail]]
      rfl
    | cons kv t =>
      have hsl : serMTail (kv :: t) = ',' :: (serMem kv ++ serMTail t) := by simp [serMTail]
      rw [hsl] at hlen
      simp only [List.length_cons, List.length_append] at hlen
      have hxok : numsOK kv.2 = true ∧ numsOKM t = true := by
        simpa [numsOKM, Bool.and_eq_true] using hok
      rw [show serMTail (kv :: t) ++ '\x7d' :: rest =
          ',' :: (serMem kv ++ (serMTail t ++ '\x7d' :: rest)) from by
        simp [serMTail, List.append_assoc]]
      rw [parseF_objTail_comma,
        IHM kv (serMTail t ++ '\x7d' :: rest) (by omega) (numStop_serMTail t rest) hxok.1]
      show (match parseF g .objTail (serMTail t ++ '\x7d' :: rest) with
            | some (PRes.mems kvs', r3) => some (PRes.mems (kv :: kvs'), r3)
            | _ => none) = _
      rw [IHO t rest (by omega) hxok.2]

theorem jsonLoads_serV (v : JVal) (hok : numsOK v = true) :
    jsonLoads (serV v) = some v := by
  have h := (parse_serV_aux ((serV v).length + 1)).1 v [] (Nat.lt_succ_self _)
    (by intro c hc; simp at hc) hok
  rw [List.append_nil] at h
  unfold jsonLoads
  rw [h]
  rfl

theorem dropWhile_of_head (p : Char → Bool) (l : List Char)
    (h : ∀ c, l.head? = some c → p c = false) : l.dropWhile p = l := by
  cases l with
  | nil => rfl
  | cons c t => simp [List.dropWhile_cons, h c rfl]

theorem pyStrip_eq_self (cs : List Char)
    (h1 : ∀ c, cs.head? = some c → pyWsChar c = false)
    (h2 : ∀ c, cs.getLast? = some c → pyWsChar c = false) :
    pyStrip cs = cs := by
  unfold pyStrip
  rw [dropWhile_of_head _ _ h1,
    dropWhile_of_head _ _ (by rw [List.head?_reverse]; exact h2),
    List.reverse_reverse]

theorem pyStrip_wrap (l : List Char) (hne : l ≠ [])
    (h1 : ∀ c, l.head? = some c → pyWsChar c = false)
    (h2 : ∀ c, l.getLast? = some c → pyWsChar c = false) :
    pyStrip (('\n' :: l) ++ ['\n']) = l := by
  unfold pyStrip
  have hstep1 : (('\n' :: l) ++ ['\n']).dropWhile pyWsChar = l ++ ['\n'] := by
    rw [List.cons_append, List.dropWhile_cons]
    simp only [show pyWsChar '\n' = true from by decide, if_true]
    apply dropWhile_of_head
    intro c hc
    cases l with
    | nil => exact absurd rfl hne
    | cons a t =>
      simp only [List.cons_append, List.head?_cons, Option.some.injEq] at hc
      exact hc ▸ h1 a rfl
  rw [hstep1]
  have hstep2 : (l ++ ['\n']).reverse = '\n' :: l.reverse := by
    rw [List.reverse_append]
    rfl
  rw [hstep2, List.dropWhile_cons]
  simp only [show pyWsChar '\n' = true from by decide, if_true]
  rw [dropWhile_of_head _ _ (by rw [List.head?_reverse]; exact h2),
    List.reverse_reverse]

theorem serV_obj_shape (R : Dict) :
    serV (.obj R) = '\x7b' :: (serMems R ++ ['\x7d']) := by
  simp [serV]

theorem serV_obj_head (R : Dict) :
    ∀ c, (serV (.obj R)).head? = some c → pyWsChar c = false := by
  rw [serV_obj_shape]
  intro c hc
  simp only [List.head?_cons, Option.some.injEq] at hc
  rw [← hc]
  decide

theorem serV_obj_last (R : Dict) :
    ∀ c, (serV (.obj R)).getLast? = some c → pyWsChar c = false := by
  rw [serV_obj_shape]
  intro c hc
  have hp : ('\x7b' :: (serMems R ++ ['\x7d'])).getLast? = some '\x7d' := by
    rw [show '\x7b' :: (serMems R ++ ['\x7d']) = ('\x7b' :: serMems R) ++ ['\x7d'] from by
      simp]
    exact List.getLast?_concat _
  rw [hp] at hc
  injection hc with hc
  rw [← hc]
  decide

theorem serV_obj_no_fence_front (R : Dict) :
    isPre ("```json".toList) (serV (.obj R)) = false := by
  rw [serV_obj_shape]
  rfl

theorem serV_obj_no_fence_suffix (R : Dict) :
    isSuf ("```".toList) (serV (.obj R)) = false := by
  have hrev : (serV (.obj R)).reverse = '\x7d' :: ('\x7b' :: serMems R).reverse := by
    rw [serV_obj_shape,
      show '\x7b' :: (serMems R ++ ['\x7d']) = ('\x7b' :: serMems R) ++ ['\x7d'] from by
        simp,
      List.reverse_append]
    rfl
  unfold isSuf
  rw [hrev]
  rfl

/-- `recover(toJsonText(R)) = R`: the plain round trip. -/
theorem recover_toJsonText (R : Dict) (hok : numsOK (.obj R) = true) :
    parse_json_response (toJsonText R) = some (.obj R) := by
  unfold parse_json_response
  have hts : (toJsonText R).toList = serV (.obj R) := rfl
  rw [hts]
  dsimp only
  rw [pyStrip_eq_self _ (serV_obj_head R) (serV_obj_last R)]
  rw [serV_obj_no_fence_front]
  simp only [Bool.false_eq_true, if_false]
  rw [serV_obj_no_fence_suffix]
  simp only [Bool.false_eq_true, if_false]
  rw [pyStrip_eq_self _ (serV_obj_head R) (serV_obj_last R)]
  exact jsonLoads_serV _ hok

/-- `recover` on the fence-wrapped JSON text: the markdown fence is
stripped and the record recovered. -/
theorem recover_fenced (R : Dict) (hok : numsOK (.obj R) = true) :
    parse_json_response ("```json\n" ++ toJsonText R ++ "\n```") = some (.obj R) := by
  unfold parse_json_response
  have hts : (("```json\n" ++ toJsonText R ++ "\n```")).toList =
      '`' :: '`' :: '`' :: 'j' :: 's' :: 'o' :: 'n' :: '\n' ::
        (serV (.obj R) ++ ['\n', '`', '`', '`']) := by
    show ("```json\n".toList ++ (toJsonText R).toList ++ "\n```".toList) = _
    rfl
  rw [hts]
  dsimp only
  have hfull : ('`' :: '`' :: '`' :: 'j' :: 's' :: 'o' :: 'n' :: '\n' ::
      (serV (.obj R) ++ ['\n', '`', '`', '`'])) =
      ('`' :: '`' :: '`' :: 'j' :: 's' :: 'o' :: 'n' :: '\n' ::
        (serV (.obj R) ++ ['\n', '`', '`'])) ++ ['`'] := by
    simp [List.append_assoc]
  have hstrip1 : pyStrip ('`' :: '`' :: '`' :: 'j' :: 's' :: 'o' :: 'n' :: '\n' ::
      (serV (.obj R) ++ ['\n', '`', '`', '`'])) =
      '`' :: '`' :: '`' :: 'j' :: 's' :: 'o' :: 'n' :: '\n' ::
        (serV (.obj R) ++ ['\n', '`', '`', '`']) := by
    apply pyStrip_eq_self
    · intro c hc
      simp only [List.head?_cons, Option.some.injEq] at hc
      rw [← hc]
      decide
    · intro c hc
      rw [hfull, List.getLast?_concat] at hc
      injection hc with hc
      rw [← hc]
      decide
  rw [hstrip1]
  have hpre : isPre ("```json".toList)
      ('`' :: '`' :: '`' :: 'j' :: 's' :: 'o' :: 'n' :: '\n' ::
        (serV (.obj R) ++ ['\n', '`', '`', '`'])) = true := rfl
  rw [hpre]
  simp only [if_true]
  have hdrop : List.drop 7 ('`' :: '`' :: '`' :: 'j' :: 's' :: 'o' :: 'n' :: '\n' ::
      (serV (.obj R) ++ ['\n', '`', '`', '`'])) =
      '\n' :: (serV (.obj R) ++ ['\n', '`', '`', '`']) := rfl
  rw [hdrop]
  have hc1 : '\n' :: (serV (.obj R) ++ ['\n', '`', '`', '`']) =
      (('\n' :: serV (.obj R)) ++ ['\n']) ++ ['`', '`', '`'] := by
    simp [List.append_assoc]
  have hsuf : isSuf ("```".toList)
      ('\n' :: (serV (.obj R) ++ ['\n', '`', '`', '`'])) = true := by
    unfold isSuf
    rw [show ('\n' :: (serV (.obj R) ++ ['\n', '`', '`', '`'])).reverse =
        '`' :: '`' :: '`' :: ((('\n' :: serV (.obj R)) ++ ['\n']).reverse) from by
      rw [hc1, List.reverse_append]
      rfl]
    rfl
  rw [hsuf]
  simp only [if_true]
  have htake : List.take
      (('\n' :: (serV (.obj R) ++ ['\n', '`', '`', '`'])).length - 3)
      ('\n' :: (serV (.obj R) ++ ['\n', '`', '`', '`'])) =
      ('\n' :: serV (.obj R)) ++ ['\n'] := by
    rw [hc1]
    apply List.take_left'
    simp [List.length_append]
  rw [htake]
  rw [show ('\n' :: serV (.obj R)) ++ ['\n'] = ('\n' :: serV (.obj R)) ++ ['\n'] from rfl]
  have hwrap : pyStrip (('\n' :: serV (.obj R)) ++ ['\n']) = serV (.obj R) := by
    apply pyStrip_wrap
    · rw [serV_obj_shape]
      simp
    · exact serV_obj_head R
    · exact serV_obj_last R
  rw [hwrap]
  exact jsonLoads_serV _ hok

/-- `recover` on garbage is absent. -/
theorem recover_not_json :
    parse_json_response "not json\x7b\x7b\x7b" = none := rfl

/-- `recover` on the empty string is absent. -/
theorem recover_empty : parse_json_response "" = none := rfl

/-- Round half to even (Python `round` semantics on exact values). -/
def rhe (x : ℚ) : ℤ :=
  let f := ⌊x⌋
  if x - f < 1 / 2 then f
  else if x - f > 1 / 2 then f + 1
  else if f % 2 = 0 then f else f + 1

/-- Python `round(x, 2)` on exact decimal values (the float-level
banker's rounding of the source is modelled exactly on rationals). -/
def pyRound2 (x : ℚ) : ℚ :=
  (rhe (x * 100) : ℚ) / 100

/-- Python `str(float)` on a rational with finite decimal expansion:
sign, integer part, a point, fractional digits without trailing zeros
(at least one).  Non-decimal rationals (unreachable from the modelled
arithmetic) print as a fraction. -/
def pyFloatStr (q : ℚ) : String :=
  if 10 ^ q.den % q.den = 0 then
    let k := q.den
    let m := q.num.natAbs * (10 ^ k / q.den)
    let ds0 := natChars m
    let ds := List.replicate (k + 1 - ds0.length) '0' ++ ds0
    let ip := ds.take (ds.length - k)
    let fp0 := ds.drop (ds.length - k)
    let fp1 := (fp0.reverse.dropWhile (fun c => c == '0')).reverse
    let fp := if fp1.isEmpty then ['0'] else fp1
    String.mk ((if q < 0 then ['-'] else []) ++ ip ++ '.' :: fp)
  else
    toString q.num ++ "/" ++ toString q.den

/-- Python `f"{x:.1%}"`: percent with one decimal digit. -/
def pctStr1 (q : ℚ) : String :=
  let v := rhe (q * 1000)
  let n := v.natAbs
  (if v < 0 then "-" else "") ++ toString (n / 10) ++ "." ++ toString (n % 10) ++ "%"

/-- Python `f"{x:.1f}"`: fixed-point with one decimal digit. -/
def fStr1 (q : ℚ) : String :=
  let v := rhe (q * 10)
  let n := v.natAbs
  (if v < 0 then "-" else "") ++ toString (n / 10) ++ "." ++ toString (n % 10)

/-- One entry of `SimulationAgent._load_sample_data`. -/
structure ProductData where
  current_price : ℚ
  current_cost : ℚ
  weekly_sales : ℚ
  profit_margin : ℚ
  unit : String

/-- The static five-product sample table of `_load_sample_data`. -/
def sample_data : List (String × ProductData) :=
  [("rice", ⟨50, 35, 100, 3 / 10, "kg"⟩),
   ("sugar", ⟨40, 28, 80, 3 / 10, "kg"⟩),
   ("wheat", ⟨45, 32, 120, 29 / 100, "kg"⟩),
   ("oil", ⟨120, 85, 50, 29 / 100, "liter"⟩),
   ("pulses", ⟨80, 55, 60, 31 / 100, "kg"⟩)]

/-- The `"rice"` entry, the `sample_data.get(item, sample_data.get("rice"))`
default. -/
def riceData : ProductData :=
  ⟨50, 35, 100, 3 / 10, "kg"⟩

/-- First maximal digit run of a string, the model of
`re.findall(r'\d+', s)[0]`. -/
def firstDigitRun : List Char → Option (List Char)
  | [] => none
  | c :: t => if c.isDigit then some (c :: t.takeWhile Char.isDigit) else firstDigitRun t

/-- `int(re.findall(r'\d+', s)[0])` when a digit run exists. -/
def firstIntOf (s : String) : Option Nat :=
  (firstDigitRun s.toList).map chsVal

/-- Python `s.replace(old, "")` for a single-character `old`. -/
def removeChar (s : String) (c : Char) : String :=
  String.mk (s.toList.filter (fun x => !(x == c)))

/-- Python `float(s)` on the plain-decimal fragment the agents produce
(optional sign, digits, optional fraction); other accepted Python forms
(exponents, `inf`) do not occur in the modelled flows. -/
def pyFloat (s : String) : Option ℚ :=
  let cs := pyStrip s.toList
  let (neg, cs2) :=
    match cs with
    | '-' :: t => (true, t)
    | '+' :: t => (false, t)
    | _ => (false, cs)
  let ip := cs2.takeWhile Char.isDigit
  let r := cs2.dropWhile Char.isDigit
  let core : Option ℚ :=
    match r with
    | [] => if ip.isEmpty then none else some ((chsVal ip : ℚ))
    | '.' :: r2 =>
      let fp := r2.takeWhile Char.isDigit
      let r3 := r2.dropWhile Char.isDigit
      if r3.isEmpty && !(ip.isEmpty && fp.isEmpty) then
        some ((chsVal ip : ℚ) + (chsVal fp : ℚ) / (10 ^ fp.length : ℚ))
      else none
    | _ => none
  core.map (fun v => if neg then -v else v)

/-- `SimulationAgent._simulate_price_increase`.  Uncatchable effects are
absent; the `try` block's failure modes (non-string or non-numeric
`change`) produce the error record, whose message text abbreviates the
Python exception string. -/
def simulate_price_increase (params : Dict) (pd : ProductData) : Dict :=
  match (dget params "change").getD (.str "0") with
  | .str changeS =>
    match pyFloat (removeChar (removeChar changeS '+') '%') with
    | some change_percent =>
      let current_price := pd.current_price
      let current_cost := pd.current_cost
      let weekly_sales := pd.weekly_sales
      let new_price := current_price * (1 + change_percent / 100)
      let old_profit_per_unit := current_price - current_cost
      let new_profit_per_unit := new_price - current_cost
      let sales_impact := max (1 / 2) (1 - change_percent * (2 / 100))
      let new_sales := weekly_sales * sales_impact
      let old_weekly_profit := old_profit_per_unit * weekly_sales
      let new_weekly_profit := new_profit_per_unit * new_sales
      let profit_change := new_weekly_profit - old_weekly_profit
      [("scenario", .str "increase_price"),
       ("item", (dget params "item").getD (.str "unknown")),
       ("change", .str ("+" ++ pyFloatStr change_percent ++ "%")),
       ("current_price", .num current_price),
       ("new_price", .num (pyRound2 new_price)),
       ("current_weekly_profit", .num (pyRound2 old_weekly_profit)),
       ("new_weekly_profit", .num (pyRound2 new_weekly_profit)),
       ("profit_change", .num (pyRound2 profit_change)),
       ("sales_impact", .str (pctStr1 sales_impact)),
       ("assumptions", .str ("Sales decrease by " ++ fStr1 (100 - sales_impact * 100) ++
         "% with price increase")),
       ("recommendation", .str "Consider gradual price increases to minimize sales impact")]
    | none => [("error", .str "Simulation failed: could not convert string to float")]
  | _ => [("error", .str "Simulation failed: change value has no replace attribute")]

/-- `SimulationAgent._simulate_price_decrease`. -/
def simulate_price_decrease (params : Dict) (pd : ProductData) : Dict :=
  match (dget params "change").getD (.str "0") with
  | .str changeS =>
    match pyFloat (removeChar (removeChar changeS '-') '%') with
    | some change_percent =>
      let current_price := pd.current_price
      let current_cost := pd.current_cost
      let weekly_sales := pd.weekly_sales
      let new_price := current_price * (1 - change_percent / 100)
      let old_profit_per_unit := current_price - current_cost
      let new_profit_per_unit := new_price - current_cost
      let sales_impact := 1 + change_percent * (3 / 100)
      let new_sales := weekly_sales * sales_impact
      let old_weekly_profit := old_profit_per_unit * weekly_sales
      let new_weekly_profit := new_profit_per_unit * new_sales
      let profit_change := new_weekly_profit - old_weekly_profit
      [("scenario", .str "decrease_price"),
       ("item", (dget params "item").getD (.str "unknown")),
       ("change", .str ("-" ++ pyFloatStr change_percent ++ "%")),
       ("current_price", .num current_price),
       ("new_price", .num (pyRound2 new_price)),
       ("current_weekly_profit", .num (pyRound2 old_weekly_profit)),
       ("new_weekly_profit", .num (pyRound2 new_weekly_profit)),
       ("profit_change", .num (pyRound2 profit_change)),
       ("sales_impact", .str (pctStr1 sales_impact)),
       ("assumptions", .str ("Sales increase by " ++ fStr1 (sales_impact * 100 - 100) ++
         "% with price decrease")),
       ("recommendation", .str "Monitor profit margins and adjust strategy based on results")]
    | none => [("error", .str "Simulation failed: could not convert string to float")]
  | _ => [("error", .str "Simulation failed: change value has no replace attribute")]

/-- `SimulationAgent._simulate_bulk_order`. -/
def simulate_bulk_order (params : Dict) (pd : ProductData) : Dict :=
  match (dget params "change").getD (.str "0") with
  | .str change_str =>
    let num_shops := (firstIntOf change_str).getD 10
    let current_price := pd.current_price
    let current_cost := pd.current_cost
    let weekly_sales := pd.weekly_sales
    let discount_percent := min 20 (num_shops / 5 * 5)
    let bulk_price := current_price * (1 - (discount_percent : ℚ) / 100)
    let savings_per_unit := current_price - bulk_price
    let total_savings := savings_per_unit * weekly_sales
    let old_profit_per_unit := current_price - current_cost
    let new_profit_per_unit := bulk_price - current_cost
    let profit_impact := new_profit_per_unit - old_profit_per_unit
    [("scenario", .str "bulk_order"),
     ("item", (dget params "item").getD (.str "unknown")),
     ("num_shops", .num (num_shops : ℚ)),
     ("discount", .str (toString discount_percent ++ "%")),
     ("current_price", .num current_price),
     ("bulk_price", .num (pyRound2 bulk_price)),
     ("savings_per_unit", .num (pyRound2 savings_per_unit)),
     ("weekly_savings", .num (pyRound2 total_savings)),
     ("profit_impact", .num (pyRound2 profit_impact)),
     ("revenue", .num (pyRound2 (bulk_price * weekly_sales))),
     ("profit", .num (pyRound2 ((bulk_price - current_cost) * weekly_sales))),
     ("assumptions", .str ("Bulk discount of " ++ toString discount_percent ++ "% for " ++
       toString num_shops ++ " shops")),
     ("recommendation", .str "Consider forming buying groups for better supplier rates")]
  | _ => [("error", .str "Simulation failed: findall expects a string")]

/-- `SimulationAgent._simulate_unknown_scenario`. -/
def simulate_unknown_scenario (params : Dict) : Dict :=
  [("scenario", .str "unknown"),
   ("item", (dget params "item").getD (.str "unknown")),
   ("error", .str "Unsupported simulation scenario"),
   ("supported_scenarios",
     .arr [.str "increase_price", .str "decrease_price", .str "bulk_order"]),
   ("recommendation", .str "Please rephrase your query using supported scenario types")]

/-- `SimulationAgent.run_simulation`: scenario dispatch over the sample
table.  `none` models the uncaught `AttributeError` that
`parsed_params.get("item", "unknown").lower()` raises on a non-string
item (it happens outside any `try`). -/
def run_simulation (parsed_params : Dict) : Option Dict :=
  let scenario := (dget parsed_params "scenario").getD (.str "unknown")
  match (dget parsed_params "item").getD (.str "unknown") with
  | .str itemS =>
    let item := pyLower itemS
    let product_data := (List.lookup item sample_data).getD riceData
    some
      (if pyEq scenario (.str "increase_price") then
        simulate_price_increase parsed_params product_data
      else if pyEq scenario (.str "decrease_price") then
        simulate_price_decrease parsed_params product_data
      else if pyEq scenario (.str "bulk_order") then
        simulate_bulk_order parsed_params product_data
      else simulate_unknown_scenario parsed_params)
  | _ => none

/-- The offline deterministic `simulated` record of
`SimulationAgent.simulate` (keys verbatim from the source). -/
def offline_simulated (query : String) : Dict :=
  [("scenario",
     .str (if strContains (pyLower query) "increase" then "increase_price"
       else "price_change")),
   ("item", .str "rice"),
   ("change", .str "+5%"),
   ("current_price", .num 10),
   ("new_price", .num (21 / 2)),
   ("current_weekly_profit", .num 200),
   ("new_weekly_profit", .num 210),
   ("profit_change", .num 10),
   ("sales_impact", .str "98.0%"),
   ("assumptions", .str "Offline deterministic path"),
   ("recommendation", .str "Monitor elasticity")]

/-- The offline `final_result` of `SimulationAgent.simulate`. -/
def offline_final (query ts : String) : Dict :=
  [("query", .str query),
   ("parsed_parameters",
     .obj [("scenario",
             .str (if strContains (pyLower query) "increase" then "increase_price"
               else "price_change")),
           ("item", .str "rice"),
           ("change", .str "+5%")]),
   ("simulation_results", .obj (offline_simulated query)),
   ("timestamp", .str ts)]

/-- `SimulationAgent.simulate` with `current_data`/`user_id` defaults
(`None`): the environment reads (`os.getenv` of the two API keys, the
filesystem timestamp) and the two backend parses are explicit
parameters; `none` models an uncaught exception from
`run_simulation`. -/
def simulate (hasOpenAIKey hasGoogleKey : Bool) (query ts : String)
    (gpt_parsed gemini_parsed : Option Dict) : Option Dict :=
  if !hasOpenAIKey || !hasGoogleKey then
    some (offline_final query ts)
  else
    let final_parsed := arbitrate_parsing gpt_parsed gemini_parsed
    match run_simulation final_parsed with
    | some simulation_result =>
      some [("query", .str query),
            ("parsed_parameters", .obj final_parsed),
            ("simulation_results", .obj simulation_result),
            ("timestamp", .str ts)]
    | none => none

/-- Python `.title()` on the single-word agent names. -/
def titleStr : JVal → String
  | .str s => s.capitalize
  | _ => ""

/-- `IntakeAgent.route_request`: the dispatch and its error conversion.
The modality decision, the two classification outcomes and the two
dispatched handler outcomes (`Except.error` is a raised exception with
its message) are explicit parameters; every returned record comes
verbatim from the source's literals. -/
def route_request (input_type : String) (ocr_outcome : Except String Dict)
    (gpt_cls gemini_cls : Option Dict) (sim_outcome : Except String Dict) : Dict :=
  if input_type == "image" then
    match ocr_outcome with
    | .ok result =>
      [("input_type", .str "image"), ("intent", .str "image_processing"),
       ("routed_to", .str "reality_capture_agent"), ("result", .obj result),
       ("status", .str "success")]
    | .error e =>
      [("input_type", .str "image"), ("intent", .str "image_processing"),
       ("routed_to", .str "reality_capture_agent"), ("error", .str e),
       ("status", .str "failed")]
  else
    let final_classification := arbitrate_classification gpt_cls gemini_cls
    let intent := (dget final_classification "intent").getD (.str "general")
    let routed_to := (dget final_classification "requires_agent").getD (.str "none")
    if pyEq routed_to (.str "simulation") then
      match sim_outcome with
      | .ok result =>
        [("input_type", .str "text"), ("intent", intent),
         ("routed_to", .str "simulation_agent"),
         ("classification", .obj final_classification),
         ("result", .obj result), ("status", .str "success")]
      | .error e =>
        [("input_type", .str "text"), ("intent", intent),
         ("routed_to", .str "simulation_agent"),
         ("classification", .obj final_classification),
         ("error", .str e), ("status", .str "failed")]
    else if pyEq routed_to (.str "reality_capture") then
      [("input_type", .str "text"), ("intent", intent),
       ("routed_to", .str "reality_capture_agent"),
       ("classification", .obj final_classification),
       ("message", .str "Please provide an image for processing"),
       ("status", .str "requires_image")]
    else if pyEq routed_to (.str "sales") || pyEq routed_to (.str "financial") ||
        pyEq routed_to (.str "inventory") then
      [("input_type", .str "text"), ("intent", intent), ("routed_to", routed_to),
       ("classification", .obj final_classification),
       ("message", .str (titleStr routed_to ++ " agent not yet implemented")),
       ("status", .str "not_implemented")]
    else
      [("input_type", .str "text"), ("intent", intent), ("routed_to", .str "general"),
       ("classification", .obj final_classification),
       ("message", .str "General business query received"),
       ("status", .str "success")]

theorem dget_map_keep (k k2 : String) (v : JVal) (hne : k2 ≠ k) :
    ∀ t : Dict,
      dget (t.map (fun p => if p.1 == k then (k, v) else p)) k2 = dget t k2 := by
  intro t
  induction t with
  | nil => rfl
  | cons p t ih =>
    simp only [List.map_cons]
    by_cases hp : p.1 = k
    · rw [if_pos (beq_iff_eq.mpr hp)]
      simp only [dget]
      rw [if_neg (by simpa using hne.symm), if_neg (by rw [hp]; simpa using hne.symm)]
      exact ih
    · rw [if_neg (by simpa using hp)]
      simp only [dget]
      split
      · rfl
      · exact ih

theorem dget_append_single_keep (k k2 : String) (v : JVal) (hne : k2 ≠ k) :
    ∀ t : Dict, dget (t ++ [(k, v)]) k2 = dget t k2 := by
  intro t
  induction t with
  | nil =>
    simp only [List.nil_append, dget]
    rw [if_neg (by simpa using hne.symm)]
  | cons p t ih =>
    simp only [List.cons_append, dget]
    split
    · rfl
    · exact ih

theorem dget_setKey_other (d : Dict) (k k2 : String) (v : JVal) (hne : k2 ≠ k) :
    dget (setKey d k v) k2 = dget d k2 := by
  unfold setKey
  split
  · exact dget_map_keep k k2 v hne d
  · exact dget_append_single_keep k k2 v hne d

theorem dget_append_left (L rest : Dict) (k : String) (v : JVal)
    (h : dget L k = some v) : dget (L ++ rest) k = some v := by
  induction L with
  | nil => cases h
  | cons p t ih =>
    simp only [List.cons_append, dget] at *
    split at h
    · rename_i hp
      rw [if_pos hp]
      exact h
    · rename_i hp
      rw [if_neg hp]
      exact ih h

theorem truthy_absent (a : Option Dict) (ha : truthy a = false) :
    a = none ∨ a = some [] := by
  cases a with
  | none => exact Or.inl rfl
  | some d =>
    right
    simp only [truthy, truthyDict, Bool.not_eq_false'] at ha
    rw [List.isEmpty_iff.mp ha]

/-- C6: in the both-absent branch (reached when at least one outcome is
`None` and neither is truthy), `arbitrate_classification` and
`arbitrate_parsing` call their fallback on the empty string, so the
result is one fixed constant record regardless of the user input:
intent `general` / confidence `low` / requires_agent `none` /
classification_source `fallback`, and scenario `unknown` / item
`unknown` / change `"0"` / parsing_source `fallback`. -/
theorem claim_C6 (a b : Option Dict) (ha : truthy a = false) (hb : truthy b = false)
    (hnone : a = none ∨ b = none) :
    arbitrate_classification a b = fallback_classification "" ∧
    arbitrate_parsing a b = fallback_parsing "" ∧
    fallback_classification "" =
      [("intent", .str "general"), ("confidence", .str "low"),
       ("reasoning", .str "Fallback classification used"),
       ("requires_agent", .str "none"),
       ("classification_source", .str "fallback")] ∧
    fallback_parsing "" =
      [("scenario", .str "unknown"), ("item", .str "unknown"), ("change", .str "0"),
       ("current_value", .null), ("units", .str "%"),
       ("assumptions", .str "Fallback parsing used"),
       ("simulation_type", .str "Basic unknown simulation"),
       ("parsing_source", .str "fallback")] := by
  rcases truthy_absent a ha with ha' | ha' <;> rcases truthy_absent b hb with hb' | hb' <;>
    subst ha' <;> subst hb'
  · exact ⟨rfl, rfl, rfl, rfl⟩
  · exact ⟨rfl, rfl, rfl, rfl⟩
  · exact ⟨rfl, rfl, rfl, rfl⟩
  · rcases hnone with h | h <;> cases h

/-- Witness for C6 at the concrete pair (`None`, `None`). -/
theorem claim_C6_witness :
    truthy none = false ∧ (none = (none : Option Dict) ∨ none = (none : Option Dict)) ∧
    arbitrate_classification none none = fallback_classification "" := by
  refine ⟨rfl, Or.inl rfl, ?_⟩
  exact (claim_C6 none none rfl rfl (Or.inl rfl)).1

/-- C8: the fallback intent classifier lower-cases its input and picks
the first matching category in the fixed priority order image →
simulation → sales → financial → inventory → general, always with
confidence `low` and provenance `fallback`; concrete cases from the
spec, including the fallback query parser on an increase-price query. -/
theorem claim_C8 :
    (∀ s : String,
      dget (fallback_classification s) "intent" = some (.str
        (if ["image", "photo", "receipt", "bill"].any
            (fun w => strContains (pyLower s) w) then "image_processing"
         else if ["what if", "simulate", "if"].any
            (fun w => strContains (pyLower s) w) then "simulation_query"
         else if ["sales", "transaction", "log"].any
            (fun w => strContains (pyLower s) w) then "sales_log"
         else if ["profit", "expense", "money", "financial"].any
            (fun w => strContains (pyLower s) w) then "financial_query"
         else if ["stock", "inventory", "product"].any
            (fun w => strContains (pyLower s) w) then "inventory_query"
         else "general")) ∧
      dget (fallback_classification s) "confidence" = some (.str "low") ∧
      dget (fallback_classification s) "classification_source" = some (.str "fallback")) ∧
    dget (fallback_classification "Process this receipt image") "intent" =
      some (.str "image_processing") ∧
    dget (fallback_classification "Good morning!") "intent" = some (.str "general") ∧
    dget (fallback_parsing "increase rice price by 5%") "scenario" =
      some (.str "increase_price") := by
  refine ⟨?_, rfl, rfl, rfl⟩
  intro s
  unfold fallback_classification
  refine ⟨?_, rfl, rfl⟩
  by_cases h1 : ["image", "photo", "receipt", "bill"].any
      (fun w => strContains (pyLower s) w) = true
  · simp [h1]
    rfl
  · simp only [Bool.not_eq_true] at h1
    by_cases h2 : ["what if", "simulate", "if"].any
        (fun w => strContains (pyLower s) w) = true
    · simp [h1, h2]
      rfl
    · simp only [Bool.not_eq_true] at h2
      by_cases h3 : ["sales", "transaction", "log"].any
          (fun w => strContains (pyLower s) w) = true
      · simp [h1, h2, h3]
        rfl
      · simp only [Bool.not_eq_true] at h3
        by_cases h4 : ["profit", "expense", "money", "financial"].any
            (fun w => strContains (pyLower s) w) = true
        · simp [h1, h2, h3, h4]
          rfl
        · simp only [Bool.not_eq_true] at h4
          by_cases h5 : ["stock", "inventory", "product"].any
              (fun w => strContains (pyLower s) w) = true
          · simp [h1, h2, h3, h4, h5]
            rfl
          · simp only [Bool.not_eq_true] at h5
            simp [h1, h2, h3, h4, h5]
            rfl

/-- C5: when both outcomes are present (truthy) and not Python-equal,
intent arbitration keeps the record whose confidence rank (high 3,
medium 2, low 1, anything missing or unknown defaulting to 1) is
higher, and parsing arbitration keeps the record with more top-level
fields; an exact tie in rank or count favors the GPT record; the kept
record is tagged `gpt_preferred` or `gemini_preferred`. -/
theorem claim_C5 (A B : Dict) (hA : truthyDict A = true) (hB : truthyDict B = true)
    (hne : pyEqDict A B = false) :
    arbitrate_classification (some A) (some B) =
      (if confRank (confOf A) ≥ confRank (confOf B) then
        setKey A "classification_source" (.str "gpt_preferred")
      else
        setKey B "classification_source" (.str "gemini_preferred")) ∧
    arbitrate_parsing (some A) (some B) =
      (if A.length ≥ B.length then
        setKey A "parsing_source" (.str "gpt_preferred")
      else
        setKey B "parsing_source" (.str "gemini_preferred")) ∧
    confRank (.str "high") = 3 ∧ confRank (.str "medium") = 2 ∧
    confRank (.str "low") = 1 ∧ confRank (.str "certain") = 1 ∧
    confRank .null = 1 := by
  have h1 : pyEqOpt (some A) (some B) = false := hne
  refine ⟨?_, ?_, rfl, rfl, rfl, rfl, rfl⟩
  · unfold arbitrate_classification
    rw [h1, show truthy (some A) = true from hA, show truthy (some B) = true from hB]
    simp
  · unfold arbitrate_parsing
    rw [h1, show truthy (some A) = true from hA, show truthy (some B) = true from hB]
    simp

/-- Witness for C5: a high-confidence GPT record against a larger
low-confidence Gemini record. -/
theorem claim_C5_witness :
    truthyDict [("confidence", JVal.str "high")] = true ∧
    pyEqDict [("confidence", JVal.str "high")]
      [("confidence", JVal.str "low"), ("x", JVal.null)] = false ∧
    arbitrate_classification (some [("confidence", JVal.str "high")])
        (some [("confidence", JVal.str "low"), ("x", JVal.null)]) =
      (if confRank (confOf [("confidence", JVal.str "high")]) ≥
          confRank (confOf [("confidence", JVal.str "low"), ("x", JVal.null)]) then
        setKey [("confidence", JVal.str "high")] "classification_source"
          (.str "gpt_preferred")
      else
        setKey [("confidence", JVal.str "low"), ("x", JVal.null)]
          "classification_source" (.str "gemini_preferred")) := by
  have hne : pyEqDict [("confidence", JVal.str "high")]
      [("confidence", JVal.str "low"), ("x", JVal.null)] = false := by
    simp [pyEqDict, pyEq]
  exact ⟨rfl, hne,
    (claim_C5 [("confidence", JVal.str "high")]
      [("confidence", JVal.str "low"), ("x", JVal.null)] rfl rfl hne).1⟩

theorem pyEqOpt_nil_nil : pyEqOpt (some ([] : Dict)) (some []) = true := by
  simp [pyEqOpt, pyEqDict, pyEq, pyEqSub]

theorem arbitrate_classification_nil_nil :
    arbitrate_classification (some []) (some []) =
      [("classification_source", JVal.str "gpt+gemini_agree")] := by
  unfold arbitrate_classification
  rw [pyEqOpt_nil_nil]
  rfl

theorem arbitrate_parsing_nil_nil :
    arbitrate_parsing (some []) (some []) =
      [("parsing_source", JVal.str "gpt+gemini_agree")] := by
  unfold arbitrate_parsing
  rw [pyEqOpt_nil_nil]
  rfl

theorem arbitrate_ocr_nil_nil :
    arbitrate_ocr (some []) (some []) = [("source", JVal.str "gpt+gemini_agree")] := by
  unfold arbitrate_ocr
  rw [pyEqOpt_nil_nil]
  rfl

/-- C2 counterexample to the literal reading: two empty mappings are
both falsy ("absent"), yet the Python-`==` agree branch fires first,
so the provenance is `gpt+gemini_agree`, not `fallback`, and the OCR
result is not the `both_failed` record. -/
theorem claim_C2_cex :
    truthy (some ([] : Dict)) = false ∧
    arbitrate_classification (some []) (some []) =
      [("classification_source", JVal.str "gpt+gemini_agree")] ∧
    dget (arbitrate_classification (some []) (some [])) "classification_source" ≠
      some (JVal.str "fallback") ∧
    arbitrate_ocr (some []) (some []) ≠ ocrBothFailed := by
  refine ⟨rfl, arbitrate_classification_nil_nil, ?_, ?_⟩
  · rw [arbitrate_classification_nil_nil]
    intro h
    simp [dget] at h
  · rw [arbitrate_ocr_nil_nil]
    intro h
    simp [ocrBothFailed] at h

/-- C2, amended: with both outcomes absent (falsy), the arbitrated
result is never absent (always a truthy record); when at least one
side is `None` the fallback / `both_failed` records are returned as
the spec says, but when both sides are empty mappings the agree branch
fires first and tags `gpt+gemini_agree`. -/
theorem claim_C2 (a b : Option Dict) (ha : truthy a = false) (hb : truthy b = false) :
    (a = none ∨ b = none →
      arbitrate_classification a b = fallback_classification "" ∧
      arbitrate_parsing a b = fallback_parsing "" ∧
      arbitrate_ocr a b = ocrBothFailed) ∧
    (a = some [] → b = some [] →
      arbitrate_classification a b =
        [("classification_source", .str "gpt+gemini_agree")] ∧
      arbitrate_parsing a b = [("parsing_source", .str "gpt+gemini_agree")] ∧
      arbitrate_ocr a b = [("source", .str "gpt+gemini_agree")]) ∧
    truthyDict (arbitrate_classification a b) = true ∧
    truthyDict (arbitrate_parsing a b) = true ∧
    truthyDict (arbitrate_ocr a b) = true := by
  rcases truthy_absent a ha with ha' | ha' <;> rcases truthy_absent b hb with hb' | hb' <;>
    subst ha' <;> subst hb'
  · exact ⟨fun _ => ⟨rfl, rfl, rfl⟩, fun h _ => Option.noConfusion h, rfl, rfl, rfl⟩
  · exact ⟨fun _ => ⟨rfl, rfl, rfl⟩, fun h _ => Option.noConfusion h, rfl, rfl, rfl⟩
  · exact ⟨fun _ => ⟨rfl, rfl, rfl⟩, fun _ h => Option.noConfusion h, rfl, rfl, rfl⟩
  · refine ⟨fun h => ?_, fun _ _ =>
      ⟨arbitrate_classification_nil_nil, arbitrate_parsing_nil_nil, arbitrate_ocr_nil_nil⟩,
      ?_, ?_, ?_⟩
    · rcases h with h | h <;> exact Option.noConfusion h
    · rw [arbitrate_classification_nil_nil]; rfl
    · rw [arbitrate_parsing_nil_nil]; rfl
    · rw [arbitrate_ocr_nil_nil]; rfl

/-- Witness for C2 at the concrete pair (`None`, empty mapping). -/
theorem claim_C2_witness :
    truthy (none : Option Dict) = false ∧ truthy (some ([] : Dict)) = false ∧
    arbitrate_classification none (some []) = fallback_classification "" ∧
    arbitrate_ocr none (some []) = ocrBothFailed := by
  have h := (claim_C2 none (some []) rfl rfl).1 (Or.inl rfl)
  exact ⟨rfl, rfl, h.1, h.2.2⟩

theorem pyEqOpt_truthy_mismatch (a b : Option Dict) (ha : truthy a = true)
    (hb : truthy b = false) : pyEqOpt a b = false := by
  cases a with
  | none => exact Bool.noConfusion ha
  | some A =>
    rcases truthy_absent b hb with h | h <;> subst h
    · rfl
    · cases A with
      | nil => exact Bool.noConfusion ha
      | cons p t => simp [pyEqOpt, pyEqDict, pyEq]

theorem pyEqOpt_absent_truthy (a b : Option Dict) (ha : truthy a = false)
    (hb : truthy b = true) : pyEqOpt a b = false := by
  rcases truthy_absent a ha with h | h <;> subst h
  · cases b with
    | none => exact Bool.noConfusion hb
    | some B => rfl
  · cases b with
    | none => exact Bool.noConfusion hb
    | some B =>
      cases B with
      | nil => exact Bool.noConfusion hb
      | cons p t => simp [pyEqOpt, pyEqDict, pyEq]

theorem eraseKey_of_absent (k : String) :
    ∀ d : Dict, dget d k = none → eraseKey d k = d := by
  intro d
  induction d with
  | nil => intro _; rfl
  | cons p t ih =>
    intro h
    simp only [dget] at h
    split at h
    · exact Option.noConfusion h
    · rename_i hcond
      simp only [eraseKey, List.filter_cons]
      rw [if_pos (by simpa using hcond)]
      have ht := ih h
      simp only [eraseKey] at ht
      rw [ht]

/-- C4 counterexample to "the result minus the tag equals the present
record": when the present record already carries the provenance key,
the dict-spread overwrites it in place, so stripping the tag from the
result loses the record's own entry. -/
theorem claim_C4_cex :
    truthy (some [("classification_source", JVal.str "x")]) = true ∧
    truthy (none : Option Dict) = false ∧
    arbitrate_classification (some [("classification_source", JVal.str "x")]) none =
      [("classification_source", JVal.str "gpt_only")] ∧
    eraseKey (arbitrate_classification
        (some [("classification_source", JVal.str "x")]) none)
      "classification_source" ≠ [("classification_source", JVal.str "x")] := by
  refine ⟨rfl, rfl, rfl, ?_⟩
  intro h
  exact List.noConfusion h

/-- C4, amended: with exactly one outcome present (truthiness-gated,
so this branch also fires against an empty mapping), the present
record is returned with the provenance tag `gpt_only`/`gemini_only`
spread in; the result minus the tag equals the present record minus
any pre-existing tag entry, hence equals the present record itself
exactly when the record does not already carry the tag key. -/
theorem claim_C4 (a b : Option Dict) (ha : truthy a = true) (hb : truthy b = false) :
    arbitrate_classification a b =
      setKey (a.getD []) "classification_source" (.str "gpt_only") ∧
    arbitrate_classification b a =
      setKey (a.getD []) "classification_source" (.str "gemini_only") ∧
    arbitrate_ocr a b = setKey (a.getD []) "source" (.str "gpt_only") ∧
    arbitrate_ocr b a = setKey (a.getD []) "source" (.str "gemini_only") ∧
    arbitrate_parsing a b = setKey (a.getD []) "parsing_source" (.str "gpt_only") ∧
    eraseKey (arbitrate_classification a b) "classification_source" =
      eraseKey (a.getD []) "classification_source" ∧
    (dget (a.getD []) "classification_source" = none →
      eraseKey (arbitrate_classification a b) "classification_source" = a.getD []) := by
  have h1 : pyEqOpt a b = false := pyEqOpt_truthy_mismatch a b ha hb
  have h2 : pyEqOpt b a = false := pyEqOpt_absent_truthy b a hb ha
  have e1 : arbitrate_classification a b =
      setKey (a.getD []) "classification_source" (.str "gpt_only") := by
    unfold arbitrate_classification
    rw [h1, ha, hb]
    simp
  have e2 : arbitrate_classification b a =
      setKey (a.getD []) "classification_source" (.str "gemini_only") := by
    unfold arbitrate_classification
    rw [h2, ha, hb]
    simp
  have e3 : arbitrate_ocr a b = setKey (a.getD []) "source" (.str "gpt_only") := by
    unfold arbitrate_ocr
    rw [h1, ha, hb]
    simp
  have e4 : arbitrate_ocr b a = setKey (a.getD []) "source" (.str "gemini_only") := by
    unfold arbitrate_ocr
    rw [h2, ha, hb]
    simp
  have e5 : arbitrate_parsing a b =
      setKey (a.getD []) "parsing_source" (.str "gpt_only") := by
    unfold arbitrate_parsing
    rw [h1, ha, hb]
    simp
  refine ⟨e1, e2, e3, e4, e5, ?_, ?_⟩
  · rw [e1, eraseKey_setKey]
  · intro h
    rw [e1, eraseKey_setKey, eraseKey_of_absent _ _ h]

/-- Witness for C4: a one-entry record against `None`. -/
theorem claim_C4_witness :
    truthy (some [("intent", JVal.str "general")]) = true ∧
    truthy (none : Option Dict) = false ∧
    arbitrate_classification (some [("intent", JVal.str "general")]) none =
      setKey [("intent", JVal.str "general")] "classification_source"
        (.str "gpt_only") :=
  ⟨rfl, rfl, (claim_C4 (some [("intent", JVal.str "general")]) none rfl rfl).1⟩

/-- The merged-record head of the OCR tie branch. -/
def ocrMerged (A B : Dict) : Dict :=
  [("items", .arr (mergeItems (itemsOf A) (itemsOf B))),
   ("total", .num (max (totalOf A) (totalOf B))),
   ("source", .str "merged")]

theorem arbitrate_ocr_present (A B : Dict) (hA : truthyDict A = true)
    (hB : truthyDict B = true) (hne : pyEqDict A B = false) :
    arbitrate_ocr (some A) (some B) =
      (if (itemsOf A).length > (itemsOf B).length then
        setKey A "source" (.str "gpt_preferred")
      else if (itemsOf B).length > (itemsOf A).length then
        setKey B "source" (.str "gemini_preferred")
      else if A.length > B.length then
        ocrMerged A B ++ A.filter (fun kv => (dget (ocrMerged A B) kv.1).isNone)
      else
        ocrMerged A B ++ B.filter (fun kv => (dget (ocrMerged A B) kv.1).isNone)) := by
  have h1 : pyEqOpt (some A) (some B) = false := hne
  unfold arbitrate_ocr
  rw [h1, show truthy (some A) = true from hA, show truthy (some B) = true from hB]
  simp [ocrMerged]

theorem mergeItems_pair (x y : JVal) (hxy : pyEq x y = false) :
    mergeItems [x] [y] = [x, y] := by
  simp [mergeItems, hxy]

/-- C1: OCR arbitration with both records present and not Python-equal.
A strictly longer items list wins the whole record (tagged
`gpt_preferred`/`gemini_preferred`) with its items unchanged; an exact
item-count tie merges: provenance `merged`, items = primary items plus
the secondary items not already present by value equality, total = the
max of the two totals (0 for a missing key); in particular one
distinct item on each side and a smaller primary total give provenance
`merged`, both items, and the secondary total. -/
theorem claim_C1 (A B : Dict) (hA : truthyDict A = true) (hB : truthyDict B = true)
    (hne : pyEqDict A B = false) :
    ((itemsOf A).length > (itemsOf B).length →
      arbitrate_ocr (some A) (some B) = setKey A "source" (.str "gpt_preferred") ∧
      dget (arbitrate_ocr (some A) (some B)) "items" = dget A "items") ∧
    ((itemsOf B).length > (itemsOf A).length →
      arbitrate_ocr (some A) (some B) = setKey B "source" (.str "gemini_preferred") ∧
      dget (arbitrate_ocr (some A) (some B)) "items" = dget B "items") ∧
    ((itemsOf A).length = (itemsOf B).length →
      dget (arbitrate_ocr (some A) (some B)) "source" = some (.str "merged") ∧
      dget (arbitrate_ocr (some A) (some B)) "items" =
        some (.arr (mergeItems (itemsOf A) (itemsOf B))) ∧
      dget (arbitrate_ocr (some A) (some B)) "total" =
        some (.num (max (totalOf A) (totalOf B)))) ∧
    (∀ x y, itemsOf A = [x] → itemsOf B = [y] → pyEq x y = false →
      totalOf A < totalOf B →
      dget (arbitrate_ocr (some A) (some B)) "source" = some (.str "merged") ∧
      dget (arbitrate_ocr (some A) (some B)) "items" = some (.arr [x, y]) ∧
      dget (arbitrate_ocr (some A) (some B)) "total" = some (.num (totalOf B))) := by
  have hmain := arbitrate_ocr_present A B hA hB hne
  have htie : (itemsOf A).length = (itemsOf B).length →
      dget (arbitrate_ocr (some A) (some B)) "source" = some (.str "merged") ∧
      dget (arbitrate_ocr (some A) (some B)) "items" =
        some (.arr (mergeItems (itemsOf A) (itemsOf B))) ∧
      dget (arbitrate_ocr (some A) (some B)) "total" =
        some (.num (max (totalOf A) (totalOf B))) := by
    intro heq
    rw [hmain, if_neg (by omega), if_neg (by omega)]
    split
    · exact ⟨dget_append_left _ _ _ _ rfl, dget_append_left _ _ _ _ rfl,
        dget_append_left _ _ _ _ rfl⟩
    · exact ⟨dget_append_left _ _ _ _ rfl, dget_append_left _ _ _ _ rfl,
        dget_append_left _ _ _ _ rfl⟩
  refine ⟨?_, ?_, htie, ?_⟩
  · intro hgt
    rw [hmain, if_pos hgt]
    exact ⟨rfl, dget_setKey_other A "source" "items" _ (by decide)⟩
  · intro hgt
    rw [hmain, if_neg (by omega), if_pos hgt]
    exact ⟨rfl, dget_setKey_other B "source" "items" _ (by decide)⟩
  · intro x y hxA hxB hxy hlt
    have heq : (itemsOf A).length = (itemsOf B).length := by rw [hxA, hxB]; rfl
    obtain ⟨hs, hi, ht⟩ := htie heq
    refine ⟨hs, ?_, ?_⟩
    · rw [hi, hxA, hxB, mergeItems_pair x y hxy]
    · rw [ht, max_eq_right (le_of_lt hlt)]

/-- Witness for C1: one distinct item each side, primary total 0
(missing key), secondary total 1. -/
theorem claim_C1_witness :
    truthyDict [("items", JVal.arr [JVal.str "a"])] = true ∧
    pyEq (JVal.str "a") (JVal.str "b") = false ∧
    dget (arbitrate_ocr (some [("items", JVal.arr [JVal.str "a"])])
        (some [("items", JVal.arr [JVal.str "b"]), ("total", JVal.num 1)])) "source" =
      some (JVal.str "merged") ∧
    dget (arbitrate_ocr (some [("items", JVal.arr [JVal.str "a"])])
        (some [("items", JVal.arr [JVal.str "b"]), ("total", JVal.num 1)])) "items" =
      some (JVal.arr [JVal.str "a", JVal.str "b"]) ∧
    dget (arbitrate_ocr (some [("items", JVal.arr [JVal.str "a"])])
        (some [("items", JVal.arr [JVal.str "b"]), ("total", JVal.num 1)])) "total" =
      some (JVal.num (totalOf [("items", JVal.arr [JVal.str "b"]),
        ("total", JVal.num 1)])) := by
  have hxy : pyEq (JVal.str "a") (JVal.str "b") = false := by simp [pyEq]
  have h := (claim_C1 [("items", JVal.arr [JVal.str "a"])]
      [("items", JVal.arr [JVal.str "b"]), ("total", JVal.num 1)]
      rfl rfl (by simp [pyEqDict, pyEq])).2.2.2
      (JVal.str "a") (JVal.str "b") rfl rfl hxy one_pos
  exact ⟨rfl, hxy, h.1, h.2.1, h.2.2⟩

/-- C10: in the bulk-order simulation, the shop count is the first
integer found in the parsed `change` string (default 10 when none),
the discount is `min 20 (numShops / 5 * 5)` percent, the bulk price is
`price * (1 - discount / 100)`, and the per-unit savings are the price
minus the bulk price; the concrete discount cases 10 → 10, 27 → 20
(capped) and 3 → 0 hold. -/
theorem claim_C10 (params : Dict) (pd : ProductData) (cs : String)
    (hch : dget params "change" = some (JVal.str cs)) :
    dget (simulate_bulk_order params pd) "num_shops" =
      some (.num (((firstIntOf cs).getD 10 : ℚ))) ∧
    dget (simulate_bulk_order params pd) "discount" =
      some (.str (toString (min 20 ((firstIntOf cs).getD 10 / 5 * 5)) ++ "%")) ∧
    dget (simulate_bulk_order params pd) "bulk_price" =
      some (.num (pyRound2 (pd.current_price *
        (1 - ((min 20 ((firstIntOf cs).getD 10 / 5 * 5) : ℕ) : ℚ) / 100)))) ∧
    dget (simulate_bulk_order params pd) "savings_per_unit" =
      some (.num (pyRound2 (pd.current_price - pd.current_price *
        (1 - ((min 20 ((firstIntOf cs).getD 10 / 5 * 5) : ℕ) : ℚ) / 100)))) ∧
    min 20 (10 / 5 * 5) = 10 ∧ min 20 (27 / 5 * 5) = 20 ∧ min 20 (3 / 5 * 5) = 0 := by
  unfold simulate_bulk_order
  rw [hch]
  exact ⟨rfl, rfl, rfl, rfl, rfl, rfl, rfl⟩

/-- Witness for C10: "27 shops" on the rice sample data. -/
theorem claim_C10_witness :
    dget [("change", JVal.str "27 shops")] "change" = some (JVal.str "27 shops") ∧
    dget (simulate_bulk_order [("change", JVal.str "27 shops")] riceData) "discount" =
      some (JVal.str (toString (min 20 ((firstIntOf "27 shops").getD 10 / 5 * 5)) ++
        "%")) :=
  ⟨rfl, (claim_C10 [("change", JVal.str "27 shops")] riceData "27 shops" rfl).2.1⟩

theorem parsing_source_present (a b : Option Dict) :
    ∃ v, dget (arbitrate_parsing a b) "parsing_source" = some v := by
  unfold arbitrate_parsing
  split
  · exact ⟨_, dget_setKey_self _ _ _⟩
  · split
    · exact ⟨_, dget_setKey_self _ _ _⟩
    · split
      · exact ⟨_, dget_setKey_self _ _ _⟩
      · split
        · exact ⟨_, rfl⟩
        · dsimp only
          split
          · exact ⟨_, dget_setKey_self _ _ _⟩
          · exact ⟨_, dget_setKey_self _ _ _⟩

/-- C3 counterexample to "if and only if ... both backends are
unavailable": the gate is a disjunction, so the offline record is
already returned when only the Google key is missing while the OpenAI
key is present. -/
theorem claim_C3_cex :
    simulate true false "q" "ts" none none = some (offline_final "q" "ts") ∧
    true ≠ false := ⟨rfl, fun h => Bool.noConfusion h⟩

/-- C3, amended: `simulate` returns the fixed offline deterministic
record exactly when at least one of the two credentials is missing
(the code's gate is an OR, not an AND); the offline record carries
item `rice`, change `+5%`, current_price 10, new_price 10.5,
profit_change 10, and the scenario label comes from a single substring
check for "increase", as on the spec's example query. -/
theorem claim_C3 (ok gk : Bool) (query ts : String) (g1 g2 : Option Dict) :
    (simulate ok gk query ts g1 g2 = some (offline_final query ts) ↔
      (ok = false ∨ gk = false)) ∧
    dget (offline_simulated query) "item" = some (.str "rice") ∧
    dget (offline_simulated query) "change" = some (.str "+5%") ∧
    dget (offline_simulated query) "current_price" = some (.num 10) ∧
    dget (offline_simulated query) "new_price" = some (.num (21 / 2)) ∧
    dget (offline_simulated query) "profit_change" = some (.num 10) ∧
    dget (offline_simulated query) "scenario" =
      some (.str (if strContains (pyLower query) "increase" then "increase_price"
        else "price_change")) ∧
    dget (offline_simulated "What if I increase rice price by 5%?") "scenario" =
      some (.str "increase_price") := by
  refine ⟨⟨?_, ?_⟩, rfl, rfl, rfl, rfl, rfl, rfl, rfl⟩
  · intro h
    cases ok with
    | false => exact Or.inl rfl
    | true =>
      cases gk with
      | false => exact Or.inr rfl
      | true =>
        exfalso
        cases hrun : run_simulation (arbitrate_parsing g1 g2) with
        | none =>
          have hs : simulate true true query ts g1 g2 = none := by
            unfold simulate
            rw [if_neg (by decide)]
            dsimp only
            rw [hrun]
          rw [hs] at h
          exact Option.noConfusion h
        | some sr =>
          have hs : simulate true true query ts g1 g2 =
              some [("query", JVal.str query),
                    ("parsed_parameters", JVal.obj (arbitrate_parsing g1 g2)),
                    ("simulation_results", JVal.obj sr),
                    ("timestamp", JVal.str ts)] := by
            unfold simulate
            rw [if_neg (by decide)]
            dsimp only
            rw [hrun]
          rw [hs] at h
          injection h with h1
          unfold offline_final at h1
          injection h1 with h2 h3
          injection h3 with h4 h5
          injection h4 with h6 h7
          injection h7 with h8
          obtain ⟨v, hv⟩ := parsing_source_present g1 g2
          rw [h8] at hv
          exact Option.noConfusion hv
  · intro h
    rcases h with h | h
    · subst h; rfl
    · subst h; cases ok <;> rfl

/-- C7: `_parse_json_response` round-trips JSON: on the JSON text of a
well-formed record it returns the record; on that text wrapped in a
```json fence (first 7 and last 3 characters stripped, re-trimmed) it
also returns the record; on non-JSON text such as "not json\x7b\x7b\x7b"
or the empty string it returns `none`. -/
theorem claim_C7 (R : Dict) (hok : numsOK (.obj R) = true) :
    parse_json_response (toJsonText R) = some (.obj R) ∧
    parse_json_response ("```json\n" ++ toJsonText R ++ "\n```") = some (.obj R) ∧
    parse_json_response "not json\x7b\x7b\x7b" = none ∧
    parse_json_response "" = none :=
  ⟨recover_toJsonText R hok, recover_fenced R hok, recover_not_json, recover_empty⟩

/-- Witness for C7: a two-field all-string record. -/
theorem claim_C7_witness :
    numsOK (.obj [("intent", JVal.str "general"),
      ("confidence", JVal.str "high")]) = true ∧
    parse_json_response (toJsonText [("intent", JVal.str "general"),
        ("confidence", JVal.str "high")]) =
      some (.obj [("intent", JVal.str "general"),
        ("confidence", JVal.str "high")]) := by
  have hok : numsOK (.obj [("intent", JVal.str "general"),
      ("confidence", JVal.str "high")]) = true := by
    simp [numsOK, numsOKM]
  exact ⟨hok, (claim_C7 [("intent", JVal.str "general"),
    ("confidence", JVal.str "high")] hok).1⟩

/-- C9: `route_request` always returns a mapping carrying `status` and
`input_type`; a failing dispatched handler (OCR on the image path, the
simulation pipeline on the simulation path) is converted at the router
boundary into a record with status `failed` and the exception's
message under `error`, never propagated. -/
theorem claim_C9 (input_type : String) (ocr : Except String Dict)
    (g1 g2 : Option Dict) (sim : Except String Dict) :
    (∃ sv, dget (route_request input_type ocr g1 g2 sim) "status" = some sv) ∧
    (∃ iv, dget (route_request input_type ocr g1 g2 sim) "input_type" = some iv) ∧
    (∀ e, dget (route_request "image" (.error e) g1 g2 sim) "status" =
        some (.str "failed") ∧
      dget (route_request "image" (.error e) g1 g2 sim) "error" = some (.str e) ∧
      dget (route_request "image" (.error e) g1 g2 sim) "input_type" =
        some (.str "image")) ∧
    (∀ e, input_type ≠ "image" →
      dget (arbitrate_classification g1 g2) "requires_agent" =
        some (.str "simulation") →
      dget (route_request input_type ocr g1 g2 (.error e)) "status" =
        some (.str "failed") ∧
      dget (route_request input_type ocr g1 g2 (.error e)) "error" =
        some (.str e) ∧
      dget (route_request input_type ocr g1 g2 (.error e)) "input_type" =
        some (.str "text")) := by
  have hgen : ∀ (it : String) (oc : Except String Dict) (sm : Except String Dict),
      (∃ sv, dget (route_request it oc g1 g2 sm) "status" = some sv) ∧
      (∃ iv, dget (route_request it oc g1 g2 sm) "input_type" = some iv) := by
    intro it oc sm
    unfold route_request
    by_cases him : (it == "image") = true
    · rw [if_pos him]
      cases oc <;> exact ⟨⟨_, rfl⟩, ⟨_, rfl⟩⟩
    · rw [if_neg him]
      dsimp only
      split
      · cases sm <;> exact ⟨⟨_, rfl⟩, ⟨_, rfl⟩⟩
      · split
        · exact ⟨⟨_, rfl⟩, ⟨_, rfl⟩⟩
        · split
          · exact ⟨⟨_, rfl⟩, ⟨_, rfl⟩⟩
          · exact ⟨⟨_, rfl⟩, ⟨_, rfl⟩⟩
  refine ⟨(hgen input_type ocr sim).1, (hgen input_type ocr sim).2, ?_, ?_⟩
  · intro e
    exact ⟨rfl, rfl, rfl⟩
  · intro e him hra
    unfold route_request
    rw [if_neg (by simpa using him)]
    dsimp only
    rw [hra]
    simp only [Option.getD_some]
    rw [if_pos (by simp [pyEq])]
    exact ⟨rfl, rfl, rfl⟩

/-- Witness for C9: a simulation-routed text query whose simulation
pipeline throws. -/
theorem claim_C9_witness :
    dget (route_request "text" (Except.ok [])
        (some [("requires_agent", JVal.str "simulation")]) none
        (Except.error "boom")) "status" = some (JVal.str "failed") ∧
    dget (route_request "text" (Except.ok [])
        (some [("requires_agent", JVal.str "simulation")]) none
        (Except.error "boom")) "error" = some (JVal.str "boom") := by
  have h := (claim_C9 "text" (Except.ok [])
      (some [("requires_agent", JVal.str "simulation")]) none
      (Except.error "boom")).2.2.2 "boom" (by decide) rfl
  exact ⟨h.1, h.2.1⟩
